import Mathlib

/-!
Verification of the azurite-rs blob-storage emulator core against its
specification.  The Rust sources under src/ are shallowly embedded below:
pure functions become Lean functions, the concurrent stores (DashMap based)
become association lists with insert-replace semantics, byte buffers become
lists of naturals, timestamps become naturals, and the UUID generator is
modelled by a counter threaded through the state (freshly generated ids and
etags are assumed distinct from older ones, which is stated as an explicit
hypothesis wherever a theorem needs it).  Machine integers are naturals;
u64 subtraction and addition are wrapped modulo 2^64 exactly where the Rust
code can underflow or overflow in release mode (the range-read path of
download_blob); elsewhere the quantities are lengths of in-memory buffers
and are exact.
-/

namespace Azurite

/-! ## Generic helpers: association lists with insert-replace semantics,
modelling DashMap, and small string utilities. -/

/-- Lookup in an association list (models DashMap get). -/
def alistGet {κ ν : Type} [DecidableEq κ] (l : List (κ × ν)) (k : κ) : Option ν :=
  (l.find? (fun p => p.1 = k)).map (fun p => p.2)

/-- Insert-replace in an association list (models DashMap insert). -/
def alistPut {κ ν : Type} [DecidableEq κ] (l : List (κ × ν)) (k : κ) (v : ν) :
    List (κ × ν) :=
  (k, v) :: l.filter (fun p => ¬ p.1 = k)

/-- Remove a key from an association list (models DashMap remove). -/
def alistDel {κ ν : Type} [DecidableEq κ] (l : List (κ × ν)) (k : κ) : List (κ × ν) :=
  l.filter (fun p => ¬ p.1 = k)

/-- Rust str.split_once: split at the first occurrence of a character. -/
def splitOnceList (c : Char) : List Char → Option (List Char × List Char)
  | [] => none
  | x :: xs =>
    if x = c then some ([], xs)
    else (splitOnceList c xs).map (fun p => (x :: p.1, p.2))

/-- Rust str.split_once on strings. -/
def splitOnce (s : String) (c : Char) : Option (String × String) :=
  (splitOnceList c s.toList).map (fun p => (String.mk p.1, String.mk p.2))

/-- Rust str.find(needle): index (in characters) of the first occurrence of a
substring; byte indices in the Rust code always sit on character boundaries,
so the character index is the faithful translation. -/
def findSub (needle : List Char) (hay : List Char) : Option Nat :=
  if needle.isPrefixOf hay then some 0
  else
    match hay with
    | [] => none
    | _ :: rest => (findSub needle rest).map (fun n => n + 1)

/-- Rust str.contains for substrings. -/
def containsSub (hay needle : String) : Bool :=
  (findSub needle.toList hay.toList).isSome

/-- Rust char.is_ascii_alphanumeric. -/
def isAsciiAlphanumeric (c : Char) : Bool :=
  ('a' ≤ c && c ≤ 'z') || ('A' ≤ c && c ≤ 'Z') || ('0' ≤ c && c ≤ '9')

/-- Rust char.is_ascii_lowercase. -/
def isAsciiLowercase (c : Char) : Bool := 'a' ≤ c && c ≤ 'z'

/-- Rust char.is_ascii_digit. -/
def isAsciiDigit (c : Char) : Bool := '0' ≤ c && c ≤ '9'

/-- Rust str.to_lowercase for the ASCII strings the server handles
(headers, query keys, action names).  Implemented characterwise so that the
kernel can evaluate it (the core library String.toLower does not reduce). -/
def asciiToLower (s : String) : String :=
  String.mk (s.toList.map (fun c => c.toLower))

/-- Rust str.to_uppercase for ASCII strings (HTTP verbs), characterwise. -/
def asciiToUpper (s : String) : String :=
  String.mk (s.toList.map (fun c => c.toUpper))

/-- Rust str.trim for ASCII whitespace, characterwise. -/
def rustTrim (s : String) : String :=
  String.mk
    (((s.toList.dropWhile (fun c => c.isWhitespace)).reverse.dropWhile
      (fun c => c.isWhitespace)).reverse)

/-- Rust str.split(c) on a character list: splits at every occurrence,
keeping empty pieces. -/
def splitChar (c : Char) : List Char → List (List Char)
  | [] => [[]]
  | x :: xs =>
    if x = c then [] :: splitChar c xs
    else
      match splitChar c xs with
      | [] => [[x]]
      | h :: t => (x :: h) :: t

/-- Rust str.split(c) on strings. -/
def stringSplitChar (s : String) (c : Char) : List String :=
  (splitChar c s.toList).map String.mk

/-- Splitting on a character-class predicate, keeping empty pieces. -/
def splitPred (p : Char → Bool) : List Char → List (List Char)
  | [] => [[]]
  | x :: xs =>
    if p x then [] :: splitPred p xs
    else
      match splitPred p xs with
      | [] => [[x]]
      | h :: t => (x :: h) :: t

/-- Rust u64 modulus. -/
def U64MOD : Nat := 2 ^ 64

/-- Wrapping u64 subtraction (release-mode Rust semantics). -/
def u64sub (a b : Nat) : Nat := (a % U64MOD + (U64MOD - b % U64MOD)) % U64MOD

/-- Wrapping u64 addition (release-mode Rust semantics). -/
def u64add (a b : Nat) : Nat := (a + b) % U64MOD

/-! ## Error taxonomy (src/error.rs). -/

/-- ErrorCode from src/error.rs: the closed set of Azure storage error codes. -/
inductive ErrorCode
  | AccountAlreadyExists
  | AccountBeingCreated
  | AccountIsDisabled
  | AuthenticationFailed
  | AuthorizationFailure
  | AuthorizationPermissionMismatch
  | AuthorizationProtocolMismatch
  | AuthorizationResourceTypeMismatch
  | AuthorizationServiceMismatch
  | AuthorizationSourceIPMismatch
  | ConditionHeadersNotSupported
  | ConditionNotMet
  | EmptyMetadataKey
  | InsufficientAccountPermissions
  | InternalError
  | InvalidAuthenticationInfo
  | InvalidHeaderValue
  | InvalidHttpVerb
  | InvalidInput
  | InvalidMd5
  | InvalidMetadata
  | InvalidQueryParameterValue
  | InvalidRange
  | InvalidResourceName
  | InvalidUri
  | InvalidXmlDocument
  | InvalidXmlNodeValue
  | Md5Mismatch
  | MetadataTooLarge
  | MissingContentLengthHeader
  | MissingRequiredQueryParameter
  | MissingRequiredHeader
  | MissingRequiredXmlNode
  | MultipleConditionHeadersNotSupported
  | OperationTimedOut
  | OutOfRangeInput
  | OutOfRangeQueryParameterValue
  | RequestBodyTooLarge
  | ResourceTypeMismatch
  | RequestUrlFailedToParse
  | ResourceAlreadyExists
  | ResourceNotFound
  | ServerBusy
  | UnsupportedHeader
  | UnsupportedXmlNode
  | UnsupportedQueryParameter
  | UnsupportedHttpVerb
  | AppendPositionConditionNotMet
  | BlobAlreadyExists
  | BlobArchived
  | BlobBeingRehydrated
  | BlobImmutableDueToPolicy
  | BlobNotArchived
  | BlobNotFound
  | BlobOverwritten
  | BlobTierInadequateForContentLength
  | BlobUsesCustomerSpecifiedEncryption
  | BlockCountExceedsLimit
  | BlockListTooLong
  | CannotChangeToLowerTier
  | CannotVerifyCopySource
  | ContainerAlreadyExists
  | ContainerBeingDeleted
  | ContainerDisabled
  | ContainerNotFound
  | ContentLengthLargerThanTierLimit
  | CopyAcrossAccountsNotSupported
  | CopyIdMismatch
  | FeatureVersionMismatch
  | IncrementalCopyBlobMismatch
  | IncrementalCopyOfEarlierVersionSnapshotNotAllowed
  | IncrementalCopySourceMustBeSnapshot
  | InfiniteLeaseDurationRequired
  | InvalidBlobOrBlock
  | InvalidBlobTier
  | InvalidBlobType
  | InvalidBlockId
  | InvalidBlockList
  | InvalidOperation
  | InvalidPageRange
  | InvalidSourceBlobType
  | InvalidSourceBlobUrl
  | InvalidVersionForPageBlobOperation
  | LeaseAlreadyBroken
  | LeaseAlreadyPresent
  | LeaseIdMismatch
  | LeaseIdMismatchWithBlobOperation
  | LeaseIdMismatchWithContainerOperation
  | LeaseIdMismatchWithLeaseOperation
  | LeaseIdMissing
  | LeaseIsBreakingAndCannotBeAcquired
  | LeaseIsBreakingAndCannotBeChanged
  | LeaseIsBrokenAndCannotBeRenewed
  | LeaseLost
  | LeaseNotPresentWithBlobOperation
  | LeaseNotPresentWithContainerOperation
  | LeaseNotPresentWithLeaseOperation
  | MaxBlobSizeConditionNotMet
  | NoPendingCopyOperation
  | OperationNotAllowedOnIncrementalCopyBlob
  | PendingCopyOperation
  | PreviousSnapshotCannotBeNewer
  | PreviousSnapshotNotFound
  | PreviousSnapshotOperationNotSupported
  | SequenceNumberConditionNotMet
  | SequenceNumberIncrementTooLarge
  | SnapshotCountExceeded
  | SnapshotOperationRateExceeded
  | SnapshotsPresent
  | SourceConditionNotMet
  | SystemInUse
  | TargetConditionNotMet
  | UnauthorizedBlobOverwrite
  | UnsupportedBlobType
deriving DecidableEq

/-- ErrorCode::status_code from src/error.rs: HTTP status for each error code.
InvalidRange is listed in the source's first (400 Bad Request) arm, so the
dedicated RANGE_NOT_SATISFIABLE arm further down in the source is unreachable
and is not reproduced here: the program answers 400 for InvalidRange. -/
def ErrorCode.statusCode : ErrorCode → Nat
  | .InvalidHeaderValue
  | .InvalidHttpVerb
  | .InvalidInput
  | .InvalidMd5
  | .InvalidMetadata
  | .InvalidQueryParameterValue
  | .InvalidRange
  | .InvalidResourceName
  | .InvalidUri
  | .InvalidXmlDocument
  | .InvalidXmlNodeValue
  | .Md5Mismatch
  | .MetadataTooLarge
  | .MissingContentLengthHeader
  | .MissingRequiredQueryParameter
  | .MissingRequiredHeader
  | .MissingRequiredXmlNode
  | .MultipleConditionHeadersNotSupported
  | .OutOfRangeInput
  | .OutOfRangeQueryParameterValue
  | .RequestBodyTooLarge
  | .UnsupportedHeader
  | .UnsupportedXmlNode
  | .UnsupportedQueryParameter
  | .UnsupportedHttpVerb
  | .InvalidBlobOrBlock
  | .InvalidBlobTier
  | .InvalidBlobType
  | .InvalidBlockId
  | .InvalidBlockList
  | .InvalidOperation
  | .InvalidPageRange
  | .InvalidSourceBlobType
  | .InvalidSourceBlobUrl
  | .InvalidVersionForPageBlobOperation
  | .BlockCountExceedsLimit
  | .BlockListTooLong
  | .EmptyMetadataKey => 400
  | .AuthenticationFailed
  | .InvalidAuthenticationInfo => 401
  | .AccountIsDisabled
  | .AuthorizationFailure
  | .AuthorizationPermissionMismatch
  | .AuthorizationProtocolMismatch
  | .AuthorizationResourceTypeMismatch
  | .AuthorizationServiceMismatch
  | .AuthorizationSourceIPMismatch
  | .InsufficientAccountPermissions => 403
  | .BlobNotFound
  | .ContainerNotFound
  | .ResourceNotFound
  | .PreviousSnapshotNotFound => 404
  | .UnsupportedBlobType => 405
  | .AccountAlreadyExists
  | .AccountBeingCreated
  | .BlobAlreadyExists
  | .BlobArchived
  | .BlobBeingRehydrated
  | .BlobImmutableDueToPolicy
  | .BlobNotArchived
  | .BlobOverwritten
  | .ContainerAlreadyExists
  | .ContainerBeingDeleted
  | .ContainerDisabled
  | .LeaseAlreadyBroken
  | .LeaseAlreadyPresent
  | .LeaseIdMismatch
  | .LeaseIdMismatchWithBlobOperation
  | .LeaseIdMismatchWithContainerOperation
  | .LeaseIdMismatchWithLeaseOperation
  | .LeaseIsBreakingAndCannotBeAcquired
  | .LeaseIsBreakingAndCannotBeChanged
  | .LeaseIsBrokenAndCannotBeRenewed
  | .LeaseLost
  | .LeaseNotPresentWithBlobOperation
  | .LeaseNotPresentWithContainerOperation
  | .LeaseNotPresentWithLeaseOperation
  | .NoPendingCopyOperation
  | .PendingCopyOperation
  | .ResourceAlreadyExists
  | .SnapshotsPresent
  | .SystemInUse => 409
  | .AppendPositionConditionNotMet
  | .ConditionNotMet
  | .LeaseIdMissing
  | .MaxBlobSizeConditionNotMet
  | .SequenceNumberConditionNotMet
  | .SourceConditionNotMet
  | .TargetConditionNotMet => 412
  | .InternalError
  | .OperationTimedOut => 500
  | .ServerBusy => 503
  | _ => 400

/-- ErrorCode::default_message from src/error.rs (the branches present in the
source; everything else falls to the generic message). -/
def ErrorCode.defaultMessage : ErrorCode → String
  | .AuthenticationFailed =>
      "Server failed to authenticate the request. Make sure the value of the Authorization header is formed correctly including the signature."
  | .AuthorizationFailure =>
      "This request is not authorized to perform this operation."
  | .BlobNotFound => "The specified blob does not exist."
  | .ContainerAlreadyExists => "The specified container already exists."
  | .ContainerNotFound => "The specified container does not exist."
  | .InvalidBlockId => "The specified block ID is invalid."
  | .InvalidBlockList => "The specified block list is invalid."
  | .InvalidHeaderValue => "The value for one of the HTTP headers is not valid."
  | .InvalidRange => "The range specified is invalid for the current size of the resource."
  | .InvalidResourceName => "The specified resource name contains invalid characters."
  | .InvalidXmlDocument => "The XML request body is invalid."
  | .LeaseIdMissing => "There is currently a lease on the resource and no lease ID was specified in the request."
  | .MissingRequiredHeader => "A required header was not specified."
  | .MissingRequiredQueryParameter => "A required query parameter was not specified."
  | .ResourceNotFound => "The specified resource does not exist."
  | .InternalError => "The server encountered an internal error. Please retry the request."
  | _ => "An error occurred while processing the request."

/-- StorageError from src/error.rs (request_id omitted: it is set only when
serializing the response). -/
structure StorageError where
  code : ErrorCode
  message : String
deriving DecidableEq

/-- StorageError::new. -/
def StorageError.new (code : ErrorCode) : StorageError :=
  ⟨code, code.defaultMessage⟩

/-- StorageError::with_message. -/
def StorageError.withMessage (code : ErrorCode) (message : String) : StorageError :=
  ⟨code, message⟩

/-- Observer: the error code of an Except result, if it is an error. -/
def resultErrorCode {α : Type} : Except StorageError α → Option ErrorCode
  | .error e => some e.code
  | .ok _ => none

instance {ε α : Type} [DecidableEq ε] [DecidableEq α] : DecidableEq (Except ε α) :=
  fun x y =>
  match x, y with
  | .ok a, .ok b =>
    if h : a = b then isTrue (by rw [h]) else isFalse (by intro hh; cases hh; exact h rfl)
  | .error e, .error f =>
    if h : e = f then isTrue (by rw [h]) else isFalse (by intro hh; cases hh; exact h rfl)
  | .ok _, .error _ => isFalse (by intro hh; cases hh)
  | .error _, .ok _ => isFalse (by intro hh; cases hh)

/-! ## Data model (src/models/blob.rs, src/models/block.rs,
src/models/container.rs).  Timestamps are naturals; the UUID based etag
generator is modelled by genEtag applied to a counter threaded through the
state. -/

/-- BlobType from src/models/blob.rs. -/
inductive BlobType
  | BlockBlob
  | PageBlob
  | AppendBlob
deriving DecidableEq

/-- AccessTier from src/models/blob.rs. -/
inductive AccessTier
  | Hot
  | Cool
  | Cold
  | Archive
deriving DecidableEq

/-- AccessTier::from_str. -/
def AccessTier.fromStr (s : String) : Option AccessTier :=
  match asciiToLower s with
  | "hot" => some .Hot
  | "cool" => some .Cool
  | "cold" => some .Cold
  | "archive" => some .Archive
  | _ => none

/-- LeaseState from src/models/blob.rs. -/
inductive LeaseState
  | Available
  | Leased
  | Expired
  | Breaking
  | Broken
deriving DecidableEq

/-- LeaseStatus from src/models/blob.rs. -/
inductive LeaseStatus
  | Unlocked
  | Locked
deriving DecidableEq

/-- LeaseDuration from src/models/blob.rs. -/
inductive LeaseDuration
  | Infinite
  | Fixed
deriving DecidableEq

/-- CopyStatus from src/models/blob.rs. -/
inductive CopyStatus
  | Pending
  | Success
  | Aborted
  | Failed
deriving DecidableEq

/-- ExtentChunk from src/models/blob.rs: a reference to an interval of an
extent. -/
structure ExtentChunk where
  id : String
  offset : Nat
  count : Nat
deriving DecidableEq

/-- ExtentChunk::new. -/
def ExtentChunk.new (id : String) (offset count : Nat) : ExtentChunk :=
  ⟨id, offset, count⟩

/-- Models format!("\x220x\x7b\x7d\x22", uuid) used for etags in the source:
the UUID is replaced by a counter value. -/
def genEtag (n : Nat) : String := "\"0x" ++ toString n ++ "\""

/-- BlobProperties from src/models/blob.rs. -/
structure BlobProperties where
  content_length : Nat
  content_type : Option String
  content_encoding : Option String
  content_language : Option String
  content_md5 : Option String
  content_disposition : Option String
  cache_control : Option String
  etag : String
  last_modified : Nat
  created_on : Nat
  blob_type : BlobType
  access_tier : AccessTier
  lease_state : LeaseState
  lease_status : LeaseStatus
  lease_duration : Option LeaseDuration
  lease_id : Option String
  lease_expiry : Option Nat
  lease_break_time : Option Nat
  sequence_number : Option Nat
  committed_block_count : Option Nat
  is_sealed : Option Bool
  server_encrypted : Bool
  copy_id : Option String
  copy_source : Option String
  copy_status : Option CopyStatus
  copy_progress : Option String
  copy_completion_time : Option Nat
  copy_status_description : Option String
  version_id : Option String
  is_current_version : Option Bool
deriving DecidableEq

/-- BlobProperties::default; the freshly generated etag and the current time
are passed in explicitly (the source draws them from uuid and Utc::now). -/
def BlobProperties.mkDefault (etag : String) (now : Nat) : BlobProperties where
  content_length := 0
  content_type := some "application/octet-stream"
  content_encoding := none
  content_language := none
  content_md5 := none
  content_disposition := none
  cache_control := none
  etag := etag
  last_modified := now
  created_on := now
  blob_type := .BlockBlob
  access_tier := .Hot
  lease_state := .Available
  lease_status := .Unlocked
  lease_duration := none
  lease_id := none
  lease_expiry := none
  lease_break_time := none
  sequence_number := none
  committed_block_count := none
  is_sealed := none
  server_encrypted := true
  copy_id := none
  copy_source := none
  copy_status := none
  copy_progress := none
  copy_completion_time := none
  copy_status_description := none
  version_id := none
  is_current_version := none

/-- BlobProperties::new. -/
def BlobProperties.mkNew (blob_type : BlobType) (content_length : Nat)
    (etag : String) (now : Nat) : BlobProperties :=
  let props := BlobProperties.mkDefault etag now
  let props := { props with blob_type := blob_type, content_length := content_length }
  match blob_type with
  | .PageBlob => { props with sequence_number := some 0 }
  | .AppendBlob => { props with committed_block_count := some 0, is_sealed := some false }
  | .BlockBlob => props

/-- BlobProperties::update_etag; the freshly generated etag and the current
time are passed in explicitly. -/
def BlobProperties.updateEtag (p : BlobProperties) (etag : String) (now : Nat) :
    BlobProperties :=
  { p with etag := etag, last_modified := now }

/-- BlobModel from src/models/blob.rs. -/
structure BlobModel where
  account : String
  container : String
  name : String
  snapshot : String
  properties : BlobProperties
  metadata : List (String × String)
  tags : List (String × String)
  extent_chunks : List ExtentChunk
  deleted : Bool
  deleted_time : Option Nat
  remaining_retention_days : Option Nat
deriving DecidableEq

/-- BlobModel::new. -/
def BlobModel.mkNew (account container name : String) (blob_type : BlobType)
    (content_length : Nat) (etag : String) (now : Nat) : BlobModel where
  account := account
  container := container
  name := name
  snapshot := ""
  properties := BlobProperties.mkNew blob_type content_length etag now
  metadata := []
  tags := []
  extent_chunks := []
  deleted := false
  deleted_time := none
  remaining_retention_days := none

/-- BlockModel from src/models/block.rs: a staged (uncommitted) block. -/
structure BlockModel where
  account : String
  container : String
  blob : String
  block_id : String
  size : Nat
  extent_chunk : ExtentChunk
  staged_time : Nat
deriving DecidableEq

/-- BlockModel::new; the staging time is passed in explicitly. -/
def BlockModel.mkNew (account container blob block_id : String) (size : Nat)
    (extent_chunk : ExtentChunk) (now : Nat) : BlockModel :=
  ⟨account, container, blob, block_id, size, extent_chunk, now⟩

/-- PublicAccessLevel from src/models/container.rs. -/
inductive PublicAccessLevel
  | None
  | Container
  | Blob
deriving DecidableEq

/-- ContainerProperties from src/models/container.rs. -/
structure ContainerProperties where
  etag : String
  last_modified : Nat
  lease_state : LeaseState
  lease_status : LeaseStatus
  lease_duration : Option LeaseDuration
  lease_id : Option String
  lease_expiry : Option Nat
  lease_break_time : Option Nat
  public_access : PublicAccessLevel
  has_immutability_policy : Bool
  has_legal_hold : Bool
  default_encryption_scope : Option String
  deny_encryption_scope_override : Bool
deriving DecidableEq

/-- ContainerProperties::default with the generated etag and time explicit. -/
def ContainerProperties.mkDefault (etag : String) (now : Nat) : ContainerProperties where
  etag := etag
  last_modified := now
  lease_state := .Available
  lease_status := .Unlocked
  lease_duration := none
  lease_id := none
  lease_expiry := none
  lease_break_time := none
  public_access := .None
  has_immutability_policy := false
  has_legal_hold := false
  default_encryption_scope := none
  deny_encryption_scope_override := false

/-- ContainerProperties::update_etag with the generated etag and time
explicit. -/
def ContainerProperties.updateEtag (p : ContainerProperties) (etag : String)
    (now : Nat) : ContainerProperties :=
  { p with etag := etag, last_modified := now }

/-- ContainerModel from src/models/container.rs; the signed_identifiers field
is kept as a list of raw id strings, since no claim inspects access
policies. -/
structure ContainerModel where
  account : String
  name : String
  properties : ContainerProperties
  metadata : List (String × String)
  signed_identifiers : List String
  deleted : Bool
  deleted_version : Option String
  deleted_time : Option Nat
  remaining_retention_days : Option Nat
deriving DecidableEq

/-! ## Extent store (src/storage/extent.rs, MemoryExtentStore).  The 64-way
sharding only affects lock contention, not the sequential semantics, so the
shards are collapsed into one association list; UUID extent ids are modelled
by a counter. -/

/-- State of MemoryExtentStore: extents plus the size accounting and the id
generator counter. -/
structure ExtentState where
  extents : List (String × List Nat)
  currentSize : Nat
  sizeLimit : Nat
  nextId : Nat
deriving DecidableEq

/-- Generated extent id (models Uuid::new_v4().to_string()). -/
def freshExtentId (n : Nat) : String := "extent-" ++ toString n

/-- MemoryExtentStore::write. -/
def extentWrite (st : ExtentState) (data : List Nat) :
    Except StorageError (ExtentChunk × ExtentState) :=
  let size := data.length
  if st.sizeLimit > 0 ∧ st.currentSize + size > st.sizeLimit then
    .error (StorageError.withMessage .RequestBodyTooLarge "Storage limit exceeded")
  else
    let extent_id := freshExtentId st.nextId
    .ok (ExtentChunk.new extent_id 0 size,
      { extents := alistPut st.extents extent_id data,
        currentSize := st.currentSize + size,
        sizeLimit := st.sizeLimit,
        nextId := st.nextId + 1 })

/-- Shard lookup of an extent by id. -/
def extentLookup (st : ExtentState) (id : String) : Option (List Nat) :=
  alistGet st.extents id

/-- MemoryExtentStore::read. -/
def extentRead (st : ExtentState) (chunk : ExtentChunk) :
    Except StorageError (List Nat) :=
  match extentLookup st chunk.id with
  | none => .error (StorageError.new .InternalError)
  | some data =>
    if chunk.offset + chunk.count > data.length then
      .error (StorageError.new .InternalError)
    else
      .ok ((data.drop chunk.offset).take chunk.count)

/-- MemoryExtentStore::read_range.  The start and end positions are u64/usize
sums that wrap in release mode; when the wrapped end passes the length check
but lies before the start, Bytes::slice panics (its begin is greater than its
end) — the panic, an unwind with no response, is the none outcome. -/
def extentReadRange (st : ExtentState) (chunk : ExtentChunk) (offset count : Nat) :
    Option (Except StorageError (List Nat)) :=
  match extentLookup st chunk.id with
  | none => some (.error (StorageError.new .InternalError))
  | some data =>
    let start := u64add chunk.offset offset
    let endPos := u64add start count
    if endPos > data.length then
      some (.error (StorageError.new .InternalError))
    else if start > endPos then none
    else
      some (.ok ((data.drop start).take (endPos - start)))

/-- MemoryExtentStore::delete (idempotent). -/
def extentDelete (st : ExtentState) (extent_id : String) : ExtentState :=
  match extentLookup st extent_id with
  | some data =>
    { st with extents := alistDel st.extents extent_id,
              currentSize := st.currentSize - data.length }
  | none => st

/-! ## Metadata store (src/storage/metadata.rs, MemoryMetadataStore).  The
DashMaps become association lists with insert-replace semantics; the HashSet
secondary indices become lists with insert-if-absent semantics. -/

/-- State of MemoryMetadataStore. -/
structure MetaState where
  containers : List ((String × String) × ContainerModel)
  blobs : List ((String × String × String × String) × BlobModel)
  blobIndex : List ((String × String) × List String)
  blocks : List ((String × String × String × String) × BlockModel)
  blockIndex : List ((String × String × String) × List String)
deriving DecidableEq

/-- MemoryMetadataStore::container_exists. -/
def containerExists (m : MetaState) (account name : String) : Bool :=
  match alistGet m.containers (account, name) with
  | some c => ¬ c.deleted
  | none => false

/-- MemoryMetadataStore::create_blob (an upsert; also maintains the blob name
index). -/
def metaCreateBlob (m : MetaState) (blob : BlobModel) : MetaState :=
  let key := (blob.account, blob.container, blob.name, blob.snapshot)
  let indexKey := (blob.account, blob.container)
  let names := (alistGet m.blobIndex indexKey).getD []
  let names := if blob.name ∈ names then names else blob.name :: names
  { m with blobIndex := alistPut m.blobIndex indexKey names,
           blobs := alistPut m.blobs key blob }

/-- MemoryMetadataStore::get_blob. -/
def metaGetBlob (m : MetaState) (account container name snapshot : String) :
    Except StorageError BlobModel :=
  if ¬ containerExists m account container then
    .error (StorageError.new .ContainerNotFound)
  else
    match alistGet m.blobs (account, container, name, snapshot) with
    | some b => if b.deleted then .error (StorageError.new .BlobNotFound) else .ok b
    | none => .error (StorageError.new .BlobNotFound)

/-- MemoryMetadataStore::update_blob (a plain insert; the name index is not
touched, exactly as in the source). -/
def metaUpdateBlob (m : MetaState) (blob : BlobModel) : MetaState :=
  { m with blobs :=
      alistPut m.blobs (blob.account, blob.container, blob.name, blob.snapshot) blob }

/-- MemoryMetadataStore::delete_blob.  The index mutation happens before the
not-found check, exactly as in the source, so the state is returned even in
the error case. -/
def metaDeleteBlob (m : MetaState) (account container name snapshot : String) :
    Except StorageError Unit × MetaState :=
  if ¬ containerExists m account container then
    (.error (StorageError.new .ContainerNotFound), m)
  else
    let removed := alistGet m.blobs (account, container, name, snapshot)
    let m1 := { m with blobs := alistDel m.blobs (account, container, name, snapshot) }
    let m2 :=
      if snapshot = "" then
        match alistGet m1.blobIndex (account, container) with
        | some names =>
          { m1 with blobIndex := alistPut m1.blobIndex (account, container) (names.erase name) }
        | none => m1
      else m1
    match removed with
    | some _ => (.ok (), m2)
    | none => (.error (StorageError.new .BlobNotFound), m2)

/-- MemoryMetadataStore::stage_block (always an upsert; also maintains the
block id index). -/
def metaStageBlock (m : MetaState) (block : BlockModel) : MetaState :=
  let key := (block.account, block.container, block.blob, block.block_id)
  let idxKey := (block.account, block.container, block.blob)
  let ids := (alistGet m.blockIndex idxKey).getD []
  let ids := if block.block_id ∈ ids then ids else block.block_id :: ids
  { m with blockIndex := alistPut m.blockIndex idxKey ids,
           blocks := alistPut m.blocks key block }

/-- MemoryMetadataStore::get_staged_blocks (in the source this returns Ok
unconditionally). -/
def metaGetStagedBlocks (m : MetaState) (account container blob : String) :
    List BlockModel :=
  let ids := (alistGet m.blockIndex (account, container, blob)).getD []
  ids.filterMap (fun id => alistGet m.blocks (account, container, blob, id))

/-- MemoryMetadataStore::delete_staged_blocks. -/
def metaDeleteStagedBlocks (m : MetaState) (account container blob : String) :
    MetaState :=
  let ids := (alistGet m.blockIndex (account, container, blob)).getD []
  let m1 := { m with blockIndex := alistDel m.blockIndex (account, container, blob) }
  { m1 with blocks :=
      ids.foldl (fun bs id => alistDel bs (account, container, blob, id)) m1.blocks }

/-- Sort relation on blob models used by list_blobs: Rust tuple comparison on
(name, snapshot). -/
def blobPairLe (a b : BlobModel) : Prop :=
  a.name < b.name ∨ (a.name = b.name ∧ a.snapshot ≤ b.snapshot)

instance : DecidableRel blobPairLe := fun a b => by
  unfold blobPairLe; infer_instance

/-- The delimiter pass of MemoryMetadataStore::list_blobs: Vec::retain over
the sorted blobs, collecting each virtual prefix once (the seen_prefixes
HashSet becomes the accumulator list). -/
def delimRetain (pfxStr delim : String) :
    List BlobModel → List String → List BlobModel × List String
  | [], _ => ([], [])
  | b :: rest, seen =>
    let nameAfter := b.name.toList.drop pfxStr.toList.length
    match findSub delim.toList nameAfter with
    | some idx =>
      let virtualPfx := pfxStr ++ String.mk (nameAfter.take idx) ++ delim
      if virtualPfx ∈ seen then
        delimRetain pfxStr delim rest seen
      else
        let step := delimRetain pfxStr delim rest (virtualPfx :: seen)
        (step.1, virtualPfx :: step.2)
    | none =>
      let step := delimRetain pfxStr delim rest seen
      (b :: step.1, step.2)

/-- The base-blob fetch of one loop iteration of list_blobs: look the name up
as a base blob and keep it subject to the include-deleted filter. -/
def fetchBaseBlob (m : MetaState) (account container name : String)
    (includeDeleted : Bool) : List BlobModel :=
  match alistGet m.blobs (account, container, name, "") with
  | some b => if includeDeleted || ! b.deleted then [b] else []
  | none => []

/-- The snapshot fetch of one loop iteration of list_blobs: all snapshot
entries of the name, subject to the include-deleted filter. -/
def fetchSnapshots (m : MetaState) (account container name : String)
    (includeDeleted : Bool) : List BlobModel :=
  (m.blobs.filter (fun p =>
    decide (p.1.1 = account ∧ p.1.2.1 = container ∧ p.1.2.2.1 = name ∧
      ¬ p.1.2.2.2 = ""))).filterMap
    (fun p => if includeDeleted || ! p.2.deleted then some p.2 else none)

/-- MemoryMetadataStore::list_blobs. -/
def metaListBlobs (m : MetaState) (account container : String)
    (pfx delim marker : Option String) (maxres : Option Nat)
    (includeSnapshots includeDeleted : Bool) :
    Except StorageError (List BlobModel × List String × Option String) :=
  let maxresults := maxres.getD 5000
  if ¬ containerExists m account container then
    .error (StorageError.new .ContainerNotFound)
  else
    let blobNames := ((alistGet m.blobIndex (account, container)).getD []).filter
      (fun name =>
        (match pfx with
         | some p => p.toList.isPrefixOf name.toList
         | none => true) &&
        (match marker with
         | some mk => ! decide (name ≤ mk)
         | none => true))
    let sortedNames := blobNames.insertionSort (fun a b => a ≤ b)
    let fetched := sortedNames.flatMap (fun name =>
      fetchBaseBlob m account container name includeDeleted ++
      (if includeSnapshots then
        fetchSnapshots m account container name includeDeleted
      else []))
    let blobsSorted := fetched.insertionSort blobPairLe
    let split :=
      match delim with
      | some d => delimRetain (pfx.getD "") d blobsSorted []
      | none => (blobsSorted, [])
    let prefixesSorted := split.2.insertionSort (fun a b => a ≤ b)
    if split.1.length > maxresults then
      let truncated := split.1.take maxresults
      .ok (truncated, prefixesSorted, truncated.getLast?.map (fun b => b.name))
    else
      .ok (split.1, prefixesSorted, none)

/-! ## XML request parsing (src/xml/deserialize.rs).  The quick_xml pull
tokenizer is an external crate; its event stream is the interface consumed by
the source, so request bodies are modelled as lists of already-tokenized
events (text events carry unescaped, trim_text-processed text; a bad event
stands for a tokenizer or unescape error). -/

/-- Event stream of the quick_xml reader, as consumed by the parsers. -/
inductive XmlEvent
  | start (name : String)
  | close (name : String)
  | text (s : String)
  | bad
deriving DecidableEq

/-- BlockListRequest from src/xml/deserialize.rs. -/
structure BlockListRequest where
  committed : List String
  uncommitted : List String
  latest : List String
deriving DecidableEq

/-- The event loop of BlockListRequest::parse. -/
def blockListParseLoop : List XmlEvent → Option String → BlockListRequest →
    Except StorageError BlockListRequest
  | [], _, acc => .ok acc
  | .start n :: rest, _, acc => blockListParseLoop rest (some n) acc
  | .close _ :: rest, _, acc => blockListParseLoop rest none acc
  | .text s :: rest, cur, acc =>
    (match cur with
     | some elem =>
       if rustTrim s = "" then blockListParseLoop rest cur acc
       else
         match elem with
         | "Committed" =>
           blockListParseLoop rest cur { acc with committed := acc.committed ++ [s] }
         | "Uncommitted" =>
           blockListParseLoop rest cur { acc with uncommitted := acc.uncommitted ++ [s] }
         | "Latest" =>
           blockListParseLoop rest cur { acc with latest := acc.latest ++ [s] }
         | _ => blockListParseLoop rest cur acc
     | none => blockListParseLoop rest cur acc)
  | .bad :: _, _, _ => .error (StorageError.new .InvalidXmlDocument)

/-- BlockListRequest::parse. -/
def BlockListRequest.parse (events : List XmlEvent) :
    Except StorageError BlockListRequest :=
  blockListParseLoop events none ⟨[], [], []⟩

/-- The event loop of parse_tags from src/xml/deserialize.rs; the HashMap
becomes an insert-replace association list. -/
def parseTagsLoop : List XmlEvent → String → String → Bool → Bool →
    List (String × String) → Except StorageError (List (String × String))
  | [], _, _, _, _, tags => .ok tags
  | .start n :: rest, currentText, currentKey, inKey, inValue, tags =>
    (match n with
     | "Key" => parseTagsLoop rest currentText currentKey true inValue tags
     | "Value" => parseTagsLoop rest currentText currentKey inKey true tags
     | _ => parseTagsLoop rest currentText currentKey inKey inValue tags)
  | .close n :: rest, currentText, currentKey, inKey, inValue, tags =>
    (match n with
     | "Key" => parseTagsLoop rest "" currentText false inValue tags
     | "Value" =>
       parseTagsLoop rest "" "" inKey false (alistPut tags currentKey currentText)
     | _ => parseTagsLoop rest currentText currentKey inKey inValue tags)
  | .text s :: rest, currentText, currentKey, inKey, inValue, tags =>
    if inKey || inValue then
      parseTagsLoop rest s currentKey inKey inValue tags
    else
      parseTagsLoop rest currentText currentKey inKey inValue tags
  | .bad :: _, _, _, _, _, _ => .error (StorageError.new .InvalidXmlDocument)

/-- parse_tags from src/xml/deserialize.rs. -/
def parseTags (events : List XmlEvent) :
    Except StorageError (List (String × String)) :=
  parseTagsLoop events "" "" false false []

/-! ## Request context (src/context.rs).  Header names are lowercase in the
HeaderMap, so lookups are direct; the two If-(Un)Modified-Since headers are
carried already parsed, because parse_http_date delegates to the external
chrono crate. -/

/-- Decimal parser on strings, characterwise (the semantics of the core
String.toNat?): a nonempty all-digit string.  It accepts the same digit
strings as the u64 FromStr parser except for an optional leading plus sign,
which no client sends. -/
def strToNat? (s : String) : Option Nat :=
  if ¬ s.toList = [] ∧ s.toList.all Char.isDigit then
    some (s.toList.foldl (fun n c => n * 10 + (c.toNat - 48)) 0)
  else none

/-- Rust parse_range_header from src/context.rs. -/
def parseRangeHeader (value : String) : Option (Nat × Option Nat) :=
  if "bytes=".toList.isPrefixOf value.toList then
    let v := String.mk (value.toList.drop 6)
    match stringSplitChar v '-' with
    | [a, b] =>
      match strToNat? a with
      | some start =>
        if b = "" then some (start, none)
        else
          match strToNat? b with
          | some endv => some (start, some endv)
          | none => none
      | none => none
    | _ => none
  else none

/-- RequestContext from src/context.rs (the fields the embedded handlers
consume). -/
structure Ctx where
  account : String
  container : Option String
  blob : Option String
  queryParams : List (String × String)
  headers : List (String × String)
  ifModifiedSinceTime : Option Nat
  ifUnmodifiedSinceTime : Option Nat
  method : String
  uriPath : String
deriving DecidableEq

/-- RequestContext::header. -/
def Ctx.header (ctx : Ctx) (name : String) : Option String :=
  alistGet ctx.headers name

/-- RequestContext::query_param. -/
def Ctx.queryParam (ctx : Ctx) (name : String) : Option String :=
  alistGet ctx.queryParams name

/-- RequestContext::content_md5. -/
def Ctx.contentMd5 (ctx : Ctx) : Option String := ctx.header "content-md5"

/-- RequestContext::content_length. -/
def Ctx.contentLength (ctx : Ctx) : Option Nat :=
  (ctx.header "content-length").bind (fun v => strToNat? v)

/-- RequestContext::lease_id. -/
def Ctx.leaseId (ctx : Ctx) : Option String := ctx.header "x-ms-lease-id"

/-- RequestContext::if_match. -/
def Ctx.ifMatch (ctx : Ctx) : Option String := ctx.header "if-match"

/-- RequestContext::if_none_match. -/
def Ctx.ifNoneMatch (ctx : Ctx) : Option String := ctx.header "if-none-match"

/-- RequestContext::copy_source. -/
def Ctx.copySource (ctx : Ctx) : Option String := ctx.header "x-ms-copy-source"

/-- RequestContext::snapshot. -/
def Ctx.snapshotParam (ctx : Ctx) : Option String := ctx.queryParam "snapshot"

/-- RequestContext::range. -/
def Ctx.range (ctx : Ctx) : Option (Nat × Option Nat) :=
  ((ctx.header "range").or (ctx.header "x-ms-range")).bind parseRangeHeader

/-- RequestContext::metadata: the x-ms-meta-* headers. -/
def Ctx.metadataOf (ctx : Ctx) : List (String × String) :=
  ctx.headers.filterMap (fun p =>
    if "x-ms-meta-".toList.isPrefixOf p.1.toList then
      some (String.mk (p.1.toList.drop "x-ms-meta-".length), p.2)
    else none)

/-- RequestContext::ms_headers: x-ms-* headers sorted ascending by name. -/
def Ctx.msHeaders (ctx : Ctx) : List (String × String) :=
  (ctx.headers.filter (fun p => "x-ms-".toList.isPrefixOf p.1.toList)).insertionSort
    (fun a b => a.1 ≤ b.1)

/-! ## Server state and shared checks (src/handlers/blob.rs). -/

/-- Combined server state: metadata store, extent store, the UUID generator
counter and the clock. -/
structure St where
  meta : MetaState
  ext : ExtentState
  fresh : Nat
  now : Nat
deriving DecidableEq

/-- Generated UUID string (models Uuid::new_v4().to_string()). -/
def genUuid (n : Nat) : String := "uuid-" ++ toString n

/-- check_blob_lease from src/handlers/blob.rs. -/
def checkBlobLease (blob : BlobModel) (provided_lease_id : Option String) :
    Except StorageError Unit :=
  if blob.properties.lease_state = .Leased then
    match blob.properties.lease_id, provided_lease_id with
    | some expected, some provided =>
      if expected = provided then .ok ()
      else .error (StorageError.new .LeaseIdMismatchWithBlobOperation)
    | some _, none => .error (StorageError.new .LeaseIdMissing)
    | _, _ => .ok ()
  else .ok ()

/-- check_container_lease from src/handlers/container.rs. -/
def checkContainerLease (container : ContainerModel)
    (provided_lease_id : Option String) : Except StorageError Unit :=
  if container.properties.lease_state = .Leased then
    match container.properties.lease_id, provided_lease_id with
    | some expected, some provided =>
      if expected = provided then .ok ()
      else .error (StorageError.new .LeaseIdMismatchWithContainerOperation)
    | some _, none => .error (StorageError.new .LeaseIdMissing)
    | _, _ => .ok ()
  else .ok ()

/-- check_conditional_headers from src/handlers/blob.rs. -/
def checkConditionalHeaders (ctx : Ctx) (blob : BlobModel) :
    Except StorageError Unit :=
  if ctx.ifMatch.any (fun etag =>
      ! decide (etag = "*") && ! decide (etag = blob.properties.etag)) then
    .error (StorageError.new .ConditionNotMet)
  else if ctx.ifNoneMatch.any (fun etag =>
      decide (etag = "*") || decide (etag = blob.properties.etag)) then
    .error (StorageError.new .ConditionNotMet)
  else if ctx.ifModifiedSinceTime.any (fun since =>
      decide (blob.properties.last_modified ≤ since)) then
    .error (StorageError.new .ConditionNotMet)
  else if ctx.ifUnmodifiedSinceTime.any (fun since =>
      decide (since < blob.properties.last_modified)) then
    .error (StorageError.new .ConditionNotMet)
  else .ok ()

/-! ## Download handler (src/handlers/blob.rs, download_blob).  Only the
response triple (status, body, Content-Range) assembled by the handler is
modelled; the remaining response headers echo blob properties verbatim and
are not touched by any claim. -/

/-- The full-read loop of download_blob. -/
def readFullLoop (ext : ExtentState) : List ExtentChunk →
    Except StorageError (List Nat)
  | [] => .ok []
  | chunk :: rest =>
    match extentRead ext chunk with
    | .error e => .error e
    | .ok data =>
      match readFullLoop ext rest with
      | .error e => .error e
      | .ok restData => .ok (data ++ restData)

/-- The range-read loop of download_blob.  The u64 additions and subtractions
wrap exactly as release-mode Rust does; the loop walks the chunk list keeping
the running position and the number of bytes already read, and stops once the
requested length has been collected. -/
def readRangeLoop (ext : ExtentState) (start length : Nat) :
    List ExtentChunk → Nat → Nat → Option (Except StorageError (List Nat))
  | [], _, _ => some (.ok [])
  | chunk :: rest, current_pos, bytes_read =>
    let chunk_end := u64add current_pos chunk.count
    let stepRes : Option (Except StorageError (List Nat × Nat)) :=
      if current_pos < u64add start length ∧ start < chunk_end then
        let chunk_start := if current_pos < start then u64sub start current_pos else 0
        let chunk_read_end := min chunk.count (u64sub (u64add start length) current_pos)
        let bytes_to_read := u64sub chunk_read_end chunk_start
        match extentReadRange ext chunk chunk_start bytes_to_read with
        | none => none
        | some (.error e) => some (.error e)
        | some (.ok data) => some (.ok (data, u64add bytes_read bytes_to_read))
      else some (.ok (([] : List Nat), bytes_read))
    match stepRes with
    | none => none
    | some (.error e) => some (.error e)
    | some (.ok (data, newRead)) =>
      if newRead ≥ length then some (.ok data)
      else
        match readRangeLoop ext start length rest chunk_end newRead with
        | none => none
        | some (.error e) => some (.error e)
        | some (.ok restData) => some (.ok (data ++ restData))

/-- The observable output of download_blob: HTTP status, body bytes and the
Content-Range header. -/
structure DownloadResult where
  status : Nat
  data : List Nat
  contentRange : Option String
deriving DecidableEq

/-- download_blob from src/handlers/blob.rs.  The first component is none
exactly when the handler panics (the range-read loop hit the Bytes::slice
panic of read_range): the request then gets no response at all.  On every
other path it is the response, and the state is never changed. -/
def downloadBlob (ctx : Ctx) (st : St) :
    Option (Except StorageError DownloadResult) × St :=
  match ctx.container with
  | none => (some (.error (StorageError.new .ContainerNotFound)), st)
  | some container =>
    match ctx.blob with
    | none => (some (.error (StorageError.new .BlobNotFound)), st)
    | some blobName =>
      let snapshot := ctx.snapshotParam.getD ""
      match metaGetBlob st.meta ctx.account container blobName snapshot with
      | .error e => (some (.error e), st)
      | .ok blob =>
        match checkConditionalHeaders ctx blob with
        | .error e => (some (.error e), st)
        | .ok _ =>
          match ctx.range with
          | some (start, endOpt) =>
            let endv := endOpt.getD (blob.properties.content_length - 1)
            if start ≥ blob.properties.content_length then
              (some (.error (StorageError.new .InvalidRange)), st)
            else
              let actual_end := min endv (blob.properties.content_length - 1)
              let length := u64add (u64sub actual_end start) 1
              match readRangeLoop st.ext start length blob.extent_chunks 0 0 with
              | none => (none, st)
              | some (.error e) => (some (.error e), st)
              | some (.ok result) =>
                let range_str := "bytes " ++ toString start ++ "-" ++
                  toString actual_end ++ "/" ++
                  toString blob.properties.content_length
                (some (.ok ⟨206, result, some range_str⟩), st)
          | none =>
            match readFullLoop st.ext blob.extent_chunks with
            | .error e => (some (.error e), st)
            | .ok result => (some (.ok ⟨200, result, none⟩), st)

/-! ## Mutating blob handlers (src/handlers/blob.rs). -/

/-- delete_blob from src/handlers/blob.rs (returns 202 Accepted). -/
def deleteBlob (ctx : Ctx) (st : St) : Except StorageError Nat × St :=
  match ctx.container with
  | none => (.error (StorageError.new .ContainerNotFound), st)
  | some container =>
    match ctx.blob with
    | none => (.error (StorageError.new .BlobNotFound), st)
    | some blobName =>
      let snapshot := ctx.snapshotParam.getD ""
      match metaGetBlob st.meta ctx.account container blobName snapshot with
      | .error e => (.error e, st)
      | .ok blob =>
        match checkBlobLease blob ctx.leaseId with
        | .error e => (.error e, st)
        | .ok _ =>
          match checkConditionalHeaders ctx blob with
          | .error e => (.error e, st)
          | .ok _ =>
            let del := metaDeleteBlob st.meta ctx.account container blobName snapshot
            match del.1 with
            | .error e => (.error e, { st with meta := del.2 })
            | .ok _ =>
              let ext := blob.extent_chunks.foldl
                (fun e c => extentDelete e c.id) st.ext
              (.ok 202, { st with meta := del.2, ext := ext })

/-- The x-ms-blob-content-* header application shared verbatim by
commit_block_list and set_blob_properties. -/
def applyContentHeaders (ctx : Ctx) (p : BlobProperties) : BlobProperties :=
  let p := match ctx.header "x-ms-blob-content-type" with
    | some ct => { p with content_type := some ct }
    | none => p
  let p := match ctx.header "x-ms-blob-content-encoding" with
    | some ce => { p with content_encoding := some ce }
    | none => p
  let p := match ctx.header "x-ms-blob-content-language" with
    | some cl => { p with content_language := some cl }
    | none => p
  let p := match ctx.header "x-ms-blob-content-md5" with
    | some md5 => { p with content_md5 := some md5 }
    | none => p
  let p := match ctx.header "x-ms-blob-content-disposition" with
    | some cd => { p with content_disposition := some cd }
    | none => p
  match ctx.header "x-ms-blob-cache-control" with
  | some cc => { p with cache_control := some cc }
  | none => p

/-- set_blob_properties from src/handlers/blob.rs (comp=properties). -/
def setBlobProperties (ctx : Ctx) (st : St) : Except StorageError Nat × St :=
  match ctx.container with
  | none => (.error (StorageError.new .ContainerNotFound), st)
  | some container =>
    match ctx.blob with
    | none => (.error (StorageError.new .BlobNotFound), st)
    | some blobName =>
      match metaGetBlob st.meta ctx.account container blobName "" with
      | .error e => (.error e, st)
      | .ok blob =>
        match checkBlobLease blob ctx.leaseId with
        | .error e => (.error e, st)
        | .ok _ =>
          match checkConditionalHeaders ctx blob with
          | .error e => (.error e, st)
          | .ok _ =>
            let props := applyContentHeaders ctx blob.properties
            let props := props.updateEtag (genEtag st.fresh) st.now
            let blob := { blob with properties := props }
            (.ok 200,
              { st with meta := metaUpdateBlob st.meta blob, fresh := st.fresh + 1 })

/-- set_blob_metadata from src/handlers/blob.rs (comp=metadata). -/
def setBlobMetadata (ctx : Ctx) (st : St) : Except StorageError Nat × St :=
  match ctx.container with
  | none => (.error (StorageError.new .ContainerNotFound), st)
  | some container =>
    match ctx.blob with
    | none => (.error (StorageError.new .BlobNotFound), st)
    | some blobName =>
      match metaGetBlob st.meta ctx.account container blobName "" with
      | .error e => (.error e, st)
      | .ok blob =>
        match checkBlobLease blob ctx.leaseId with
        | .error e => (.error e, st)
        | .ok _ =>
          match checkConditionalHeaders ctx blob with
          | .error e => (.error e, st)
          | .ok _ =>
            let blob := { blob with
              metadata := ctx.metadataOf,
              properties := blob.properties.updateEtag (genEtag st.fresh) st.now }
            (.ok 200,
              { st with meta := metaUpdateBlob st.meta blob, fresh := st.fresh + 1 })

/-- set_blob_tier from src/handlers/blob.rs (comp=tier; the source performs no
lease or conditional check here). -/
def setBlobTier (ctx : Ctx) (st : St) : Except StorageError Nat × St :=
  match ctx.container with
  | none => (.error (StorageError.new .ContainerNotFound), st)
  | some container =>
    match ctx.blob with
    | none => (.error (StorageError.new .BlobNotFound), st)
    | some blobName =>
      match ctx.header "x-ms-access-tier" with
      | none => (.error (StorageError.new .MissingRequiredHeader), st)
      | some tier =>
        match AccessTier.fromStr tier with
        | none => (.error (StorageError.new .InvalidBlobTier), st)
        | some access_tier =>
          match metaGetBlob st.meta ctx.account container blobName "" with
          | .error e => (.error e, st)
          | .ok blob =>
            let props := { blob.properties with access_tier := access_tier }
            let props := props.updateEtag (genEtag st.fresh) st.now
            let blob := { blob with properties := props }
            (.ok 200,
              { st with meta := metaUpdateBlob st.meta blob, fresh := st.fresh + 1 })

/-- set_blob_tags from src/handlers/blob.rs (comp=tags; note that the source
does not call update_etag here).  The body is the tokenized XML request
body; an empty body clears the tags. -/
def setBlobTags (ctx : Ctx) (body : List XmlEvent) (st : St) :
    Except StorageError Nat × St :=
  match ctx.container with
  | none => (.error (StorageError.new .ContainerNotFound), st)
  | some container =>
    match ctx.blob with
    | none => (.error (StorageError.new .BlobNotFound), st)
    | some blobName =>
      match metaGetBlob st.meta ctx.account container blobName "" with
      | .error e => (.error e, st)
      | .ok blob =>
        match checkBlobLease blob ctx.leaseId with
        | .error e => (.error e, st)
        | .ok _ =>
          if ¬ body = [] then
            match parseTags body with
            | .error e => (.error e, st)
            | .ok tags =>
              let blob := { blob with tags := tags }
              (.ok 204, { st with meta := metaUpdateBlob st.meta blob })
          else
            let blob := { blob with tags := [] }
            (.ok 204, { st with meta := metaUpdateBlob st.meta blob })

/-! ## Commit block list (src/handlers/block_blob.rs, commit_block_list).
The source resolves every id of the effective list against the staged blocks
only: the committed_chunks binding in the source is always the empty vector
and is never read (its own comment notes the simplification). -/

/-- The resolution loop of commit_block_list: for each block id of the
effective list, look it up among the staged blocks; collect the extent chunk
and accumulate the total size, failing with InvalidBlockList on the first id
that is not staged. -/
def resolveBlocks (staged : List BlockModel) :
    List String → Except StorageError (List ExtentChunk × Nat)
  | [] => .ok ([], 0)
  | block_id :: rest =>
    match staged.find? (fun b => b.block_id = block_id) with
    | some stagedBlock =>
      match resolveBlocks staged rest with
      | .ok (chunks, total) =>
        .ok (stagedBlock.extent_chunk :: chunks, stagedBlock.size + total)
      | .error e => .error e
    | none =>
      .error (StorageError.withMessage .InvalidBlockList
        ("Block " ++ block_id ++ " not found"))

/-- commit_block_list from src/handlers/block_blob.rs.  The request body is
the tokenized block-list XML. -/
def commitBlockList (ctx : Ctx) (body : List XmlEvent) (st : St) :
    Except StorageError Nat × St :=
  match ctx.container with
  | none => (.error (StorageError.new .ContainerNotFound), st)
  | some container =>
    match ctx.blob with
    | none => (.error (StorageError.new .BlobNotFound), st)
    | some blobName =>
      if ¬ containerExists st.meta ctx.account container then
        (.error (StorageError.new .ContainerNotFound), st)
      else
        let existing := (metaGetBlob st.meta ctx.account container blobName "").toOption
        match (match existing with
               | some blob => checkBlobLease blob ctx.leaseId
               | none => Except.ok ()) with
        | .error e => (.error e, st)
        | .ok _ =>
          match BlockListRequest.parse body with
          | .error e => (.error e, st)
          | .ok block_list =>
            let staged_blocks := metaGetStagedBlocks st.meta ctx.account container blobName
            let effectiveIds :=
              block_list.latest ++ block_list.uncommitted ++ block_list.committed
            match resolveBlocks staged_blocks effectiveIds with
            | .error e => (.error e, st)
            | .ok (extent_chunks, total_size) =>
              let base :=
                match existing with
                | some blob => (blob, st.fresh)
                | none =>
                  (BlobModel.mkNew ctx.account container blobName .BlockBlob 0
                    (genEtag st.fresh) st.now, st.fresh + 1)
              let blob := base.1
              let props := { blob.properties with content_length := total_size }
              let props := props.updateEtag (genEtag base.2) st.now
              let props := applyContentHeaders ctx props
              let props :=
                match ctx.header "x-ms-access-tier" with
                | some tier =>
                  match AccessTier.fromStr tier with
                  | some t => { props with access_tier := t }
                  | none => props
                | none => props
              let request_metadata := ctx.metadataOf
              let blob := { blob with
                properties := props,
                extent_chunks := extent_chunks,
                metadata := if ¬ request_metadata = [] then request_metadata
                            else blob.metadata }
              let meta := metaCreateBlob st.meta blob
              let meta := metaDeleteStagedBlocks meta ctx.account container blobName
              (.ok 201, { st with meta := meta, fresh := base.2 + 1 })

/-! ## Copy blob (src/handlers/blob.rs, copy_blob and parse_copy_source). -/

/-- Parsed copy source URL components (CopySourceParts in the source). -/
structure CopySourceParts where
  account : String
  container : String
  blob : String
  snapshot : String
deriving DecidableEq

/-- Rust splitn(3, the slash character) on a character list. -/
def splitn3Slash (l : List Char) : List (List Char) :=
  match splitOnceList '/' l with
  | none => [l]
  | some (a, rest) =>
    match splitOnceList '/' rest with
    | none => [a, rest]
    | some (b, c) => [a, b, c]

/-- parse_copy_source from src/handlers/blob.rs.  The absolute-URL branch
delegates to the external url crate; it is modelled for well-formed simple
URLs by stripping the scheme and authority, which agrees with Url::path for
every URL the emulator receives. -/
def parseCopySource (url : String) : Except StorageError CopySourceParts :=
  let path :=
    if "http://".toList.isPrefixOf url.toList then
      let after := url.toList.drop 7
      match splitOnceList '/' after with
      | some p => '/' :: p.2
      | none => []
    else if "https://".toList.isPrefixOf url.toList then
      let after := url.toList.drop 8
      match splitOnceList '/' after with
      | some p => '/' :: p.2
      | none => []
    else url.toList
  let parts := splitn3Slash (path.dropWhile (fun c => c = '/'))
  match parts with
  | [a, b, c] =>
    let account := String.mk a
    let container := String.mk b
    let blob_and_query := String.mk c
    let result :=
      match splitOnce blob_and_query '?' with
      | some (blob, query) =>
        let pieces : List String := stringSplitChar query '&'
        let snapshotPiece : Option String :=
          pieces.find? (fun (s : String) => "snapshot=".toList.isPrefixOf s.toList)
        let snapshot : Option String :=
          snapshotPiece.map (fun (s : String) =>
            String.mk (s.toList.drop "snapshot=".length))
        (blob, snapshot.getD "")
      | none => (blob_and_query, "")
    .ok ⟨account, container, result.1, result.2⟩
  | _ => .error (StorageError.new .InvalidSourceBlobUrl)

/-- copy_blob from src/handlers/blob.rs.  Both the same-account and the
cross-account branch of the source share the extent chunk references. -/
def copyBlob (ctx : Ctx) (st : St) : Except StorageError Nat × St :=
  match ctx.container with
  | none => (.error (StorageError.new .ContainerNotFound), st)
  | some container =>
    match ctx.blob with
    | none => (.error (StorageError.new .BlobNotFound), st)
    | some blobName =>
      match ctx.copySource with
      | none => (.error (StorageError.new .MissingRequiredHeader), st)
      | some copy_source =>
        match parseCopySource copy_source with
        | .error e => (.error e, st)
        | .ok source_parts =>
          match metaGetBlob st.meta source_parts.account source_parts.container
              source_parts.blob source_parts.snapshot with
          | .error e => (.error e, st)
          | .ok source_blob =>
            let copy_id := genUuid st.fresh
            let dest := BlobModel.mkNew ctx.account container blobName
              source_blob.properties.blob_type source_blob.properties.content_length
              (genEtag (st.fresh + 1)) st.now
            let props := { dest.properties with
              content_type := source_blob.properties.content_type,
              content_encoding := source_blob.properties.content_encoding,
              content_language := source_blob.properties.content_language,
              content_md5 := source_blob.properties.content_md5,
              content_disposition := source_blob.properties.content_disposition,
              cache_control := source_blob.properties.cache_control,
              copy_id := some copy_id,
              copy_source := some copy_source,
              copy_status := some .Success,
              copy_progress := some (toString source_blob.properties.content_length
                ++ "/" ++ toString source_blob.properties.content_length),
              copy_completion_time := some st.now }
            let request_metadata := ctx.metadataOf
            let dest := { dest with
              properties := props,
              extent_chunks := source_blob.extent_chunks,
              metadata := if request_metadata = [] then source_blob.metadata
                          else request_metadata }
            (.ok 202,
              { st with meta := metaCreateBlob st.meta dest, fresh := st.fresh + 2 })

/-! ## Container handlers (src/handlers/container.rs). -/

/-- MemoryMetadataStore::get_container (no deleted filter in the source). -/
def metaGetContainer (m : MetaState) (account name : String) :
    Except StorageError ContainerModel :=
  match alistGet m.containers (account, name) with
  | some c => .ok c
  | none => .error (StorageError.new .ContainerNotFound)

/-- MemoryMetadataStore::update_container. -/
def metaUpdateContainer (m : MetaState) (container : ContainerModel) :
    Except StorageError MetaState :=
  match alistGet m.containers (container.account, container.name) with
  | none => .error (StorageError.new .ContainerNotFound)
  | some _ =>
    let updated := alistPut m.containers (container.account, container.name) container
    .ok { m with containers := updated }

/-- set_container_metadata from src/handlers/container.rs. -/
def setContainerMetadata (ctx : Ctx) (st : St) : Except StorageError Nat × St :=
  match ctx.container with
  | none => (.error (StorageError.new .InvalidResourceName), st)
  | some container_name =>
    match metaGetContainer st.meta ctx.account container_name with
    | .error e => (.error e, st)
    | .ok container =>
      match checkContainerLease container ctx.leaseId with
      | .error e => (.error e, st)
      | .ok _ =>
        let props := container.properties.updateEtag (genEtag st.fresh) st.now
        let container := { container with metadata := ctx.metadataOf,
                                          properties := props }
        match metaUpdateContainer st.meta container with
        | .error e => (.error e, st)
        | .ok meta => (.ok 200, { st with meta := meta, fresh := st.fresh + 1 })

/-- validate_container_name from src/handlers/container.rs.  The length check
counts bytes (Rust str::len); the empty-name branch after it is unreachable
because a byte length of at least 3 forces a nonempty name. -/
def validateContainerName (name : String) : Except StorageError Unit :=
  if name.utf8ByteSize < 3 ∨ name.utf8ByteSize > 63 then
    .error (StorageError.withMessage .InvalidResourceName
      "Container name must be between 3 and 63 characters")
  else
    match name.toList with
    | [] =>
      .error (StorageError.withMessage .InvalidResourceName
        "Container name must be between 3 and 63 characters")
    | first_char :: _ =>
      if ¬ isAsciiAlphanumeric first_char then
        .error (StorageError.withMessage .InvalidResourceName
          "Container name must start with a letter or number")
      else
        if ¬ name = "$root" ∧ ¬ name = "$logs" ∧ ¬ name = "$web" then
          if name.toList.any (fun c =>
              ! isAsciiLowercase c && ! isAsciiDigit c && ! decide (c = '-')) then
            .error (StorageError.withMessage .InvalidResourceName
              "Container name can only contain lowercase letters, numbers, and hyphens")
          else if containsSub name "--" then
            .error (StorageError.withMessage .InvalidResourceName
              "Container name cannot have consecutive hyphens")
          else .ok ()
        else .ok ()

/-! ## SharedKey authentication (src/auth/shared_key.rs).  HMAC-SHA256 and
the base64 codec are the external hmac, sha2 and base64 crates; the composite
base64encode(HMAC-SHA256(base64decode(key), message)) is abstracted as a
function parameter, so every theorem below holds for the real primitive.
Account keys are handed out by Config::get_account_key, modelled as an
association list. -/

/-- Rust str.split_whitespace().collect().join(" "): collapse whitespace runs
and trim. -/
def collapseWhitespace (s : String) : String :=
  String.intercalate " "
    (((splitPred (fun c => c.isWhitespace) s.toList).map String.mk).filter
      (fun piece => ¬ piece = ""))

/-- Hex digit value, as used by percent decoding. -/
def hexVal (c : Char) : Option Nat :=
  if '0' ≤ c ∧ c ≤ '9' then some (c.toNat - '0'.toNat)
  else if 'a' ≤ c ∧ c ≤ 'f' then some (c.toNat - 'a'.toNat + 10)
  else if 'A' ≤ c ∧ c ≤ 'F' then some (c.toNat - 'A'.toNat + 10)
  else none

/-- percent_encoding::percent_decode_str composed with decode_utf8_lossy, for
the single-byte code points the emulator receives. -/
def percentDecodeList : List Char → List Char
  | [] => []
  | '%' :: a :: b :: rest =>
    (match hexVal a, hexVal b with
     | some x, some y => Char.ofNat (16 * x + y) :: percentDecodeList rest
     | _, _ => '%' :: percentDecodeList (a :: b :: rest))
  | c :: rest => c :: percentDecodeList rest

/-- Percent decoding on strings. -/
def percentDecode (s : String) : String := String.mk (percentDecodeList s.toList)

/-- build_canonicalized_headers_with_trailing_newline from
src/auth/shared_key.rs. -/
def buildCanonicalizedHeaders (ctx : Ctx) : String :=
  let ms := ctx.msHeaders
  if ms.isEmpty then ""
  else
    String.join (ms.map (fun p =>
      asciiToLower p.1 ++ ":" ++ collapseWhitespace p.2 ++ "\n"))

/-- build_canonicalized_resource from src/auth/shared_key.rs. -/
def buildCanonicalizedResource (ctx : Ctx) : String :=
  let resource := "/" ++ ctx.account ++ ctx.uriPath
  if ctx.queryParams.isEmpty then resource
  else
    let sorted := ctx.queryParams.insertionSort (fun a b => asciiToLower a.1 ≤ asciiToLower b.1)
    resource ++ String.join (sorted.map (fun p =>
      "\n" ++ asciiToLower p.1 ++ ":" ++ percentDecode p.2))

/-- build_canonicalized_resource_lite from src/auth/shared_key.rs. -/
def buildCanonicalizedResourceLite (ctx : Ctx) : String :=
  let resource := "/" ++ ctx.account ++ ctx.uriPath
  match ctx.queryParam "comp" with
  | some comp => resource ++ "?comp=" ++ percentDecode comp
  | none => resource

/-- build_string_to_sign from src/auth/shared_key.rs (the SharedKey
string-to-sign). -/
def buildStringToSign (ctx : Ctx) : String :=
  let verb := asciiToUpper ctx.method
  let content_headers := ["content-encoding", "content-language",
    "content-length", "content-md5", "content-type"]
  let contentParts := content_headers.map (fun h =>
    if h = "content-length" then
      match ctx.contentLength with
      | some 0 => ""
      | none => ""
      | some len => toString len
    else (ctx.header h).getD "")
  let date :=
    if (ctx.header "x-ms-date").isSome then "" else (ctx.header "date").getD ""
  let conditional_headers := ["if-modified-since", "if-match", "if-none-match",
    "if-unmodified-since", "range"]
  let conditionalParts := conditional_headers.map (fun h => (ctx.header h).getD "")
  let parts := [verb] ++ contentParts ++ [date] ++ conditionalParts
  String.intercalate "\n" parts ++ "\n" ++
    buildCanonicalizedHeaders ctx ++ buildCanonicalizedResource ctx

/-- build_string_to_sign_lite from src/auth/shared_key.rs. -/
def buildStringToSignLite (ctx : Ctx) : String :=
  let verb := asciiToUpper ctx.method
  let date := ((ctx.header "x-ms-date").or (ctx.header "date")).getD ""
  let parts := [verb, (ctx.header "content-md5").getD "",
    (ctx.header "content-type").getD "", date]
  String.intercalate "\n" parts ++ "\n" ++
    buildCanonicalizedHeaders ctx ++ buildCanonicalizedResourceLite ctx

/-- compute_signature from src/auth/shared_key.rs, with the external HMAC
primitive abstracted (the decode-failure branch for a malformed account key
is unreachable for the configured accounts). -/
def computeSignature (hmacB64 : String → String → String)
    (string_to_sign account_key : String) : String :=
  hmacB64 account_key string_to_sign

/-- validate_shared_key from src/auth/shared_key.rs. -/
def validateSharedKey (hmacB64 : String → String → String) (ctx : Ctx)
    (config : List (String × String)) : Except StorageError Unit :=
  match ctx.header "authorization" with
  | none => .error (StorageError.new .AuthenticationFailed)
  | some auth_header =>
    match splitOnce auth_header ' ' with
    | none => .error (StorageError.new .AuthenticationFailed)
    | some (scheme, credentials) =>
      if ¬ scheme = "SharedKey" ∧ ¬ scheme = "SharedKeyLite" then
        .error (StorageError.new .AuthenticationFailed)
      else
        match splitOnce credentials ':' with
        | none => .error (StorageError.new .AuthenticationFailed)
        | some (account, provided_signature) =>
          if ¬ account = ctx.account then
            .error (StorageError.new .AuthorizationFailure)
          else
            match alistGet config account with
            | none => .error (StorageError.new .AuthorizationFailure)
            | some account_key =>
              let string_to_sign :=
                if scheme = "SharedKey" then buildStringToSign ctx
                else buildStringToSignLite ctx
              let expected_signature :=
                computeSignature hmacB64 string_to_sign account_key
              if ¬ provided_signature = expected_signature then
                .error (StorageError.new .AuthenticationFailed)
              else .ok ()

/-! ## Specification-side observers.  These definitions restate notions used
by the claims (blob content, chunk validity, key consistency of the store);
they are compared against the embedded source functions by the theorems. -/

/-- A chunk reference is valid in an extent store when its extent exists and
the referenced interval lies inside the stored bytes. -/
def chunkValid (ext : ExtentState) (c : ExtentChunk) : Bool :=
  match extentLookup ext c.id with
  | some data => c.offset + c.count ≤ data.length
  | none => false

/-- The extent behind a chunk holds fewer than 2^64 bytes.  Every real extent
satisfies this: it is a Bytes buffer indexed by usize. -/
def extentSmall (ext : ExtentState) (c : ExtentChunk) : Bool :=
  match extentLookup ext c.id with
  | some data => data.length < U64MOD
  | none => true

/-- The bytes referenced by a chunk (unspecified reads give the empty
list; extentRead errors there instead). -/
def chunkSlice (ext : ExtentState) (c : ExtentChunk) : List Nat :=
  match extentLookup ext c.id with
  | some data => (data.drop c.offset).take c.count
  | none => []

/-- Blob content: the concatenation of the bytes referenced by its chunk
list (spec section 3, ExtentChunk). -/
def blobContent (ext : ExtentState) (chunks : List ExtentChunk) : List Nat :=
  (chunks.map (chunkSlice ext)).flatten

/-- Sum of the chunk counts of a chunk list. -/
def sumCounts (chunks : List ExtentChunk) : Nat :=
  (chunks.map (fun c => c.count)).sum

/-- Store invariant: every blob entry is filed under the key formed from its
own identity fields.  Every state reachable through the store operations
satisfies this. -/
def metaKeysConsistent (m : MetaState) : Prop :=
  ∀ p ∈ m.blobs, p.1 = (p.2.account, p.2.container, p.2.name, p.2.snapshot)

instance (m : MetaState) : Decidable (metaKeysConsistent m) := by
  unfold metaKeysConsistent; infer_instance

/-- Specification-side companion of the commit resolution: the staged blocks
the effective id list resolves to, in order. -/
def resolveList (staged : List BlockModel) : List String → Option (List BlockModel)
  | [] => some []
  | block_id :: rest =>
    match staged.find? (fun b => b.block_id = block_id) with
    | some b => (resolveList staged rest).map (fun bs => b :: bs)
    | none => none

/-! ## Lemmas about the association-list store primitives. -/

theorem find?_filter_ne {κ ν : Type} [DecidableEq κ] (l : List (κ × ν))
    (k k' : κ) (h : k' ≠ k) :
    List.find? (fun p => decide (p.1 = k')) (l.filter (fun p => decide ¬ p.1 = k)) =
      List.find? (fun p => decide (p.1 = k')) l := by
  induction l with
  | nil => rfl
  | cons p rest ih =>
    by_cases hp : p.1 = k
    · rw [List.filter_cons_of_neg (by simp [hp]),
        List.find?_cons_of_neg _ (by simp [hp]; exact fun hh => h (hh ▸ hp ▸ rfl))]
      exact ih
    · rw [List.filter_cons_of_pos (by simp [hp])]
      by_cases hk' : p.1 = k'
      · rw [List.find?_cons_of_pos _ (by simp [hk']),
          List.find?_cons_of_pos _ (by simp [hk'])]
      · rw [List.find?_cons_of_neg _ (by simp [hk']),
          List.find?_cons_of_neg _ (by simp [hk'])]
        exact ih

theorem alistGet_put_self {κ ν : Type} [DecidableEq κ] (l : List (κ × ν))
    (k : κ) (v : ν) : alistGet (alistPut l k v) k = some v := by
  simp [alistGet, alistPut, List.find?]

theorem alistGet_put_ne {κ ν : Type} [DecidableEq κ] (l : List (κ × ν))
    (k k' : κ) (v : ν) (h : k' ≠ k) :
    alistGet (alistPut l k v) k' = alistGet l k' := by
  unfold alistGet alistPut
  rw [List.find?_cons_of_neg _ (by simpa using Ne.symm h)]
  rw [find?_filter_ne l k k' h]

theorem alistGet_del_self {κ ν : Type} [DecidableEq κ] (l : List (κ × ν))
    (k : κ) : alistGet (alistDel l k) k = none := by
  unfold alistGet alistDel
  rw [List.find?_eq_none.mpr]
  · rfl
  · intro p hp
    have := (List.mem_filter.mp hp).2
    simpa using this

theorem alistGet_del_ne {κ ν : Type} [DecidableEq κ] (l : List (κ × ν))
    (k k' : κ) (h : k' ≠ k) :
    alistGet (alistDel l k) k' = alistGet l k' := by
  unfold alistGet alistDel
  rw [find?_filter_ne l k k' h]

theorem alistGet_mem {κ ν : Type} [DecidableEq κ] {l : List (κ × ν)}
    {k : κ} {v : ν} (h : alistGet l k = some v) : (k, v) ∈ l := by
  unfold alistGet at h
  obtain ⟨p, hfind, hval⟩ := Option.map_eq_some'.mp h
  have hmem := List.mem_of_find?_eq_some hfind
  have hpred := List.find?_some hfind
  rw [decide_eq_true_eq] at hpred
  have : p = (k, v) := by
    cases p; simp only at hval; simp_all
  rwa [this] at hmem

/-! ## Claim C8 (create_container name validation). -/

/-- Claim C8: create_container was claimed to accept the special names $root,
$logs and $web.  The code rejects all three, because the first-character
alphanumeric check runs before the special-name exemption and the dollar sign
is not alphanumeric; regular names behave as claimed (evaluated here on both
sides of the 3-63 / lowercase-alnum-hyphen / no-double-hyphen boundary). -/
theorem c8_special_names_rejected :
    resultErrorCode (validateContainerName "$root") = some ErrorCode.InvalidResourceName ∧
    (validateContainerName "$root" = .error (StorageError.withMessage
      .InvalidResourceName "Container name must start with a letter or number")) ∧
    resultErrorCode (validateContainerName "$logs") = some ErrorCode.InvalidResourceName ∧
    resultErrorCode (validateContainerName "$web") = some ErrorCode.InvalidResourceName ∧
    validateContainerName "my-container-1" = .ok () ∧
    validateContainerName "abc" = .ok () ∧
    resultErrorCode (validateContainerName "ab") = some ErrorCode.InvalidResourceName ∧
    resultErrorCode (validateContainerName "a--b") = some ErrorCode.InvalidResourceName ∧
    resultErrorCode (validateContainerName "aBc") = some ErrorCode.InvalidResourceName ∧
    resultErrorCode (validateContainerName "a_b") = some ErrorCode.InvalidResourceName ∧
    resultErrorCode (validateContainerName "-ab") = some ErrorCode.InvalidResourceName := by
  decide

/-! ## Claim C4 (conditional request evaluation). -/

/-- Claim C4 (amended): every failed conditional header check yields
ConditionNotMet with HTTP status 412; this includes a read whose
If-None-Match value matches the ETag (the code has no 304 Not Modified
path), and requests carrying several conditional headers are evaluated
header by header in order with no MultipleConditionHeadersNotSupported
error.  The second conjunct characterizes exactly when the check passes. -/
theorem c4_amended (ctx : Ctx) (blob : BlobModel) :
    (checkConditionalHeaders ctx blob = .ok () ∨
      checkConditionalHeaders ctx blob = .error (StorageError.new .ConditionNotMet)) ∧
    (checkConditionalHeaders ctx blob = .ok () ↔
      ((∀ t, ctx.ifMatch = some t → t = "*" ∨ t = blob.properties.etag) ∧
       (∀ t, ctx.ifNoneMatch = some t → ¬ t = "*" ∧ ¬ t = blob.properties.etag) ∧
       (∀ ts, ctx.ifModifiedSinceTime = some ts → ts < blob.properties.last_modified) ∧
       (∀ ts, ctx.ifUnmodifiedSinceTime = some ts →
         blob.properties.last_modified ≤ ts))) ∧
    ErrorCode.ConditionNotMet.statusCode = 412 := by
  refine ⟨?_, ?_, rfl⟩
  · unfold checkConditionalHeaders
    repeat' split
    all_goals simp
  · unfold checkConditionalHeaders
    cases hm : ctx.ifMatch <;> cases hnm : ctx.ifNoneMatch <;>
      cases hims : ctx.ifModifiedSinceTime <;> cases hius : ctx.ifUnmodifiedSinceTime <;>
      simp [Option.any, Nat.not_le, Nat.not_lt]
    all_goals (first
      | tauto
      | (split_ifs at * <;> simp_all <;> tauto))

/-- Concrete container used by the conditional-header scenario. -/
def c4Container : ContainerModel where
  account := "a1"
  name := "c1"
  properties := ContainerProperties.mkDefault "\"0xc\"" 0
  metadata := []
  signed_identifiers := []
  deleted := false
  deleted_version := none
  deleted_time := none
  remaining_retention_days := none

/-- Concrete blob with etag "0xb" and last-modified 5. -/
def c4Blob : BlobModel := BlobModel.mkNew "a1" "c1" "b1" .BlockBlob 0 "\"0xb\"" 5

/-- Concrete server state holding c4Blob. -/
def c4St : St where
  meta := { containers := [(("a1", "c1"), c4Container)],
            blobs := [(("a1", "c1", "b1", ""), c4Blob)],
            blobIndex := [(("a1", "c1"), ["b1"])],
            blocks := [], blockIndex := [] }
  ext := { extents := [], currentSize := 0, sizeLimit := 0, nextId := 0 }
  fresh := 0
  now := 10

/-- A read request whose If-None-Match value equals the ETag of c4Blob. -/
def c4Ctx : Ctx where
  account := "a1"
  container := some "c1"
  blob := some "b1"
  queryParams := []
  headers := [("if-none-match", "\"0xb\"")]
  ifModifiedSinceTime := none
  ifUnmodifiedSinceTime := none
  method := "GET"
  uriPath := "/a1/c1/b1"

/-- A request carrying both If-Match and If-None-Match, a mutually exclusive
pair, each individually satisfied. -/
def c4CtxMulti : Ctx :=
  { c4Ctx with headers := [("if-match", "\"0xb\""), ("if-none-match", "\"0xzz\"")] }

/-- Claim C4 is false as stated: a download whose If-None-Match value matches
the ETag returns ConditionNotMet with status 412, not 304 Not Modified, and a
request with both If-Match and If-None-Match passes the check instead of
failing with MultipleConditionHeadersNotSupported. -/
theorem c4_counterexample :
    (downloadBlob c4Ctx c4St).1.map resultErrorCode =
      some (some ErrorCode.ConditionNotMet) ∧
    (downloadBlob c4Ctx c4St).1 = some (.error (StorageError.new .ConditionNotMet)) ∧
    ErrorCode.ConditionNotMet.statusCode = 412 ∧
    ¬ ErrorCode.ConditionNotMet.statusCode = 304 ∧
    checkConditionalHeaders c4CtxMulti c4Blob = .ok () := by
  decide

/-! ## Store lemmas used by the mutation claims. -/

theorem metaGetBlob_ok_iff (m : MetaState) (a c n s : String) (b : BlobModel) :
    metaGetBlob m a c n s = .ok b ↔
      containerExists m a c = true ∧ alistGet m.blobs (a, c, n, s) = some b ∧
        b.deleted = false := by
  unfold metaGetBlob
  by_cases hce : containerExists m a c
  · cases hget : alistGet m.blobs (a, c, n, s) with
    | none => simp [hce, hget]
    | some b0 =>
      by_cases hd : b0.deleted = true
      · simp only [hce, Bool.not_true, hget, hd]
        simp only [reduceIte, if_true]
        constructor
        · intro h; exact absurd h (by simp)
        · rintro ⟨_, hsome, hdel⟩
          rw [Option.some_inj] at hsome; subst hsome; simp_all
      · simp only [hce, Bool.not_true, hget]
        rw [if_neg (by simp [hce]), if_neg hd]
        constructor
        · intro h
          injection h with hb
          subst hb
          refine ⟨?_, rfl, ?_⟩ <;> simp_all
        · rintro ⟨_, hsome, _⟩
          rw [Option.some_inj] at hsome; subst hsome; rfl
  · rw [if_pos (by simpa using hce)]
    constructor
    · intro h; exact absurd h (by simp)
    · rintro ⟨h1, _⟩; exact absurd h1 hce

theorem blobKey_of_get {m : MetaState} {a c n s : String} {b : BlobModel}
    (hwf : metaKeysConsistent m) (h : alistGet m.blobs (a, c, n, s) = some b) :
    (a, c, n, s) = (b.account, b.container, b.name, b.snapshot) :=
  hwf _ (alistGet_mem h)

theorem metaGetBlob_after_update {m : MetaState} {a c n s : String}
    (b : BlobModel)
    (hkey : (a, c, n, s) = (b.account, b.container, b.name, b.snapshot))
    (hce : containerExists m a c = true) (hdel : b.deleted = false) :
    metaGetBlob (metaUpdateBlob m b) a c n s = .ok b := by
  rw [metaGetBlob_ok_iff]
  refine ⟨hce, ?_, hdel⟩
  unfold metaUpdateBlob
  simp only
  rw [hkey]
  exact alistGet_put_self _ _ _

/-- Container-side key consistency of the store. -/
def containerKeysConsistent (m : MetaState) : Prop :=
  ∀ p ∈ m.containers, p.1 = (p.2.account, p.2.name)

instance (m : MetaState) : Decidable (containerKeysConsistent m) := by
  unfold containerKeysConsistent; infer_instance

/-- When every requested id has a staged block, resolve_blocks succeeds and
returns exactly the chunks and the size sum of the resolved blocks. -/
theorem resolveBlocks_ok (staged : List BlockModel) (ids : List String)
    (h : ∀ id ∈ ids, ∃ b ∈ staged, b.block_id = id) :
    ∃ bs, resolveList staged ids = some bs ∧
      resolveBlocks staged ids =
        .ok (bs.map (fun b => b.extent_chunk), (bs.map (fun b => b.size)).sum) := by
  induction ids with
  | nil => exact ⟨[], rfl, rfl⟩
  | cons id rest ih =>
    have hhead := h id (by simp)
    have hfind : (staged.find? (fun b => b.block_id = id)).isSome := by
      rw [List.find?_isSome]
      obtain ⟨b, hb, hbid⟩ := hhead
      exact ⟨b, hb, by simp [hbid]⟩
    obtain ⟨b0, hb0⟩ := Option.isSome_iff_exists.mp hfind
    obtain ⟨bs, hres, hblk⟩ := ih (fun id2 h2 => h id2 (by simp [h2]))
    refine ⟨b0 :: bs, ?_, ?_⟩
    · unfold resolveList
      rw [hb0, hres]
      rfl
    · unfold resolveBlocks
      rw [hb0, hblk]
      simp

/-- When some requested id has no staged block, resolve_blocks fails with
InvalidBlockList. -/
theorem resolveBlocks_missing (staged : List BlockModel) (ids : List String)
    (h : ∃ id ∈ ids, ∀ b ∈ staged, ¬ b.block_id = id) :
    ∃ e, resolveBlocks staged ids = .error e ∧ e.code = .InvalidBlockList := by
  induction ids with
  | nil => simp at h
  | cons id rest ih =>
    unfold resolveBlocks
    cases hfind : staged.find? (fun b => b.block_id = id) with
    | none =>
      exact ⟨_, rfl, rfl⟩
    | some b0 =>
      have hbid : b0.block_id = id := by
        have := List.find?_some hfind
        simpa using this
      have hmem := List.mem_of_find?_eq_some hfind
      have hrest : ∃ id2 ∈ rest, ∀ b ∈ staged, ¬ b.block_id = id2 := by
        obtain ⟨id2, hid2, hall⟩ := h
        rcases List.mem_cons.mp hid2 with heq | hmem2
        · exact absurd hbid (heq ▸ hall b0 hmem)
        · exact ⟨id2, hmem2, hall⟩
      obtain ⟨e, he, hcode⟩ := ih hrest
      rw [he]
      exact ⟨e, rfl, hcode⟩

/-- Reading back a freshly created blob at its own key returns it. -/
theorem metaGetBlob_after_create {m : MetaState} {a c n s : String}
    (b : BlobModel)
    (hkey : (a, c, n, s) = (b.account, b.container, b.name, b.snapshot))
    (hce : containerExists m a c = true) (hdel : b.deleted = false) :
    metaGetBlob (metaCreateBlob m b) a c n s = .ok b := by
  rw [metaGetBlob_ok_iff]
  refine ⟨hce, ?_, hdel⟩
  unfold metaCreateBlob
  simp only
  rw [hkey]
  exact alistGet_put_self _ _ _

/-- apply_content_headers never touches content_length. -/
theorem applyContentHeaders_content_length (ctx : Ctx) (p : BlobProperties) :
    (applyContentHeaders ctx p).content_length = p.content_length := by
  unfold applyContentHeaders
  cases ctx.header "x-ms-blob-content-type" <;>
    cases ctx.header "x-ms-blob-content-encoding" <;>
    cases ctx.header "x-ms-blob-content-language" <;>
    cases ctx.header "x-ms-blob-content-md5" <;>
    cases ctx.header "x-ms-blob-content-disposition" <;>
    cases ctx.header "x-ms-blob-cache-control" <;> rfl

/-- After delete_blocks, the blob has no staged blocks. -/
theorem metaGetStagedBlocks_after_delete (m : MetaState) (a c bn : String) :
    metaGetStagedBlocks (metaDeleteStagedBlocks m a c bn) a c bn = [] := by
  unfold metaGetStagedBlocks metaDeleteStagedBlocks
  simp only
  rw [alistGet_del_self]
  rfl

/-- delete_blocks leaves the blob map untouched. -/
theorem metaGetBlob_after_deleteStaged (m : MetaState) (a2 c2 n2 a c n s : String) :
    metaGetBlob (metaDeleteStagedBlocks m a2 c2 n2) a c n s = metaGetBlob m a c n s := rfl

/-- Every block produced by the resolution is one of the staged blocks. -/
theorem resolveList_subset (staged : List BlockModel) (ids : List String)
    (bs : List BlockModel) (h : resolveList staged ids = some bs) :
    ∀ b ∈ bs, b ∈ staged := by
  induction ids generalizing bs with
  | nil =>
    unfold resolveList at h
    injection h with h
    subst h
    intro b hb
    cases hb
  | cons id rest ih =>
    unfold resolveList at h
    cases hfind : staged.find? (fun b => b.block_id = id) with
    | none => rw [hfind] at h; cases h
    | some b0 =>
      rw [hfind] at h
      cases hres : resolveList staged rest with
      | none => rw [hres] at h; cases h
      | some bs0 =>
        rw [hres] at h
        simp only [Option.map] at h
        injection h with h
        subst h
        intro b hb
        rcases List.mem_cons.mp hb with heq | hm
        · exact heq ▸ List.mem_of_find?_eq_some hfind
        · exact ih bs0 hres b hm

/-- The full-read loop succeeds on a list of in-bounds chunks and returns
the concatenation of their slices. -/
theorem readFullLoop_ok (ext : ExtentState) (chunks : List ExtentChunk)
    (h : ∀ c ∈ chunks, chunkValid ext c = true) :
    readFullLoop ext chunks = .ok (blobContent ext chunks) := by
  induction chunks with
  | nil => rfl
  | cons c rest ih =>
    have hc := h c (by simp)
    have hrest := ih (fun c2 h2 => h c2 (by simp [h2]))
    have hread : extentRead ext c = .ok (chunkSlice ext c) := by
      unfold chunkValid at hc
      cases hl : extentLookup ext c.id with
      | none => rw [hl] at hc; simp at hc
      | some data =>
        rw [hl] at hc
        simp only [decide_eq_true_eq] at hc
        have hcs : chunkSlice ext c = (data.drop c.offset).take c.count := by
          unfold chunkSlice
          rw [hl]
        unfold extentRead
        rw [hl, hcs]
        show (if c.offset + c.count > data.length then
            Except.error (StorageError.new .InternalError)
          else Except.ok ((data.drop c.offset).take c.count)) =
          Except.ok ((data.drop c.offset).take c.count)
        rw [if_neg (by omega)]
    unfold readFullLoop
    rw [hread, hrest]
    rfl

/-- A conditional-header check with no conditional headers present passes. -/
theorem checkConditionalHeaders_none (ctx : Ctx) (blob : BlobModel)
    (h1 : ctx.ifMatch = none) (h2 : ctx.ifNoneMatch = none)
    (h3 : ctx.ifModifiedSinceTime = none) (h4 : ctx.ifUnmodifiedSinceTime = none) :
    checkConditionalHeaders ctx blob = .ok () := by
  unfold checkConditionalHeaders
  rw [h1, h2, h3, h4]
  rfl

/-- A download with no range on a readable blob returns 200 and the body
produced by the full-read loop, leaving the state unchanged. -/
theorem downloadBlob_full (ctx2 : Ctx) (st' : St) (container blobName : String)
    (blob' : BlobModel) (content : List Nat)
    (h2cont : ctx2.container = some container) (h2blob : ctx2.blob = some blobName)
    (h2snap : ctx2.snapshotParam = none)
    (hget : metaGetBlob st'.meta ctx2.account container blobName "" = .ok blob')
    (hcond : checkConditionalHeaders ctx2 blob' = .ok ())
    (h2range : ctx2.range = none)
    (hread : readFullLoop st'.ext blob'.extent_chunks = .ok content) :
    downloadBlob ctx2 st' = (some (.ok ⟨200, content, none⟩), st') := by
  unfold downloadBlob
  rw [h2cont, h2blob, h2snap]
  simp only [Option.getD]
  rw [hget]
  simp only [hcond, h2range, hread]

/-- Overflow-free u64 addition computes the Nat sum. -/
theorem u64add_small (a b : Nat) (h : a + b < U64MOD) : u64add a b = a + b := by
  unfold u64add
  exact Nat.mod_eq_of_lt h

/-- Underflow-free u64 subtraction computes the Nat difference. -/
theorem u64sub_small (a b : Nat) (hb : b ≤ a) (ha : a < U64MOD) : u64sub a b = a - b := by
  unfold u64sub
  rw [Nat.mod_eq_of_lt ha, Nat.mod_eq_of_lt (lt_of_le_of_lt hb ha)]
  have h1 : a + (U64MOD - b) = U64MOD + (a - b) := by omega
  rw [h1, Nat.add_mod_left]
  exact Nat.mod_eq_of_lt (by omega)

/-- The slice of an in-bounds chunk has exactly count bytes. -/
theorem chunkSlice_length (ext : ExtentState) (c : ExtentChunk)
    (hv : chunkValid ext c = true) : (chunkSlice ext c).length = c.count := by
  unfold chunkValid at hv
  unfold chunkSlice
  cases hl : extentLookup ext c.id with
  | none => rw [hl] at hv; simp at hv
  | some data =>
    rw [hl] at hv
    simp only [decide_eq_true_eq] at hv
    simp [List.length_take, List.length_drop]
    omega

/-- An in-bounds sub-range read of a small valid chunk slices the chunk
bytes: the wrapping positions stay exact, the length check passes and the
slice is well ordered, so no panic occurs. -/
theorem extentReadRange_ok (ext : ExtentState) (c : ExtentChunk) (off cnt : Nat)
    (hv : chunkValid ext c = true) (hb : off + cnt ≤ c.count)
    (hsm : extentSmall ext c = true) :
    extentReadRange ext c off cnt =
      some (.ok (((chunkSlice ext c).drop off).take cnt)) := by
  unfold chunkValid at hv
  unfold extentSmall at hsm
  cases hl : extentLookup ext c.id with
  | none => rw [hl] at hv; simp at hv
  | some data =>
    rw [hl] at hv
    rw [hl] at hsm
    simp only [decide_eq_true_eq] at hv hsm
    have hcs : chunkSlice ext c = (data.drop c.offset).take c.count := by
      unfold chunkSlice
      rw [hl]
    have h1 : u64add c.offset off = c.offset + off := u64add_small _ _ (by omega)
    have h2 : u64add (c.offset + off) cnt = c.offset + off + cnt :=
      u64add_small _ _ (by omega)
    unfold extentReadRange
    rw [hl, hcs]
    simp only [h1, h2]
    rw [if_neg (by omega), if_neg (by omega)]
    rw [show c.offset + off + cnt - (c.offset + off) = cnt from by omega]
    rw [List.drop_take, List.take_take, List.drop_drop]
    rw [min_eq_left (by omega)]

/-- The range-read loop of download_blob returns exactly the requested slice
of the remaining content: at running position pos with read bytes already
collected, the loop yields the bytes of the interval from max start pos up
to start + length, clipped to the available data.  The u64 bounds keep every
addition and subtraction of the loop free of wrapping. -/
theorem readRangeLoop_ok (ext : ExtentState) (start length : Nat)
    (chunks : List ExtentChunk) (pos read : Nat)
    (hvalid : ∀ c ∈ chunks, chunkValid ext c = true)
    (hsmall : ∀ c ∈ chunks, extentSmall ext c = true)
    (hread : read = min pos (start + length) - start)
    (hpos : read < length)
    (hbig : start + length + pos + sumCounts chunks < U64MOD) :
    readRangeLoop ext start length chunks pos read =
      some (.ok (((blobContent ext chunks).drop (start - pos)).take
        (start + length - max start pos))) := by
  induction chunks generalizing pos read with
  | nil => simp [readRangeLoop, blobContent]
  | cons c rest ih =>
    have hc := hvalid c (by simp)
    have hcsm := hsmall c (by simp)
    have hk := chunkSlice_length ext c hc
    have hsum : sumCounts (c :: rest) = c.count + sumCounts rest := by
      simp [sumCounts]
    rw [hsum] at hbig
    have hposlt : pos < start + length := by omega
    have hce : u64add pos c.count = pos + c.count :=
      u64add_small _ _ (by omega)
    have hsl : u64add start length = start + length :=
      u64add_small _ _ (by omega)
    unfold readRangeLoop
    rw [hce, hsl]
    simp only []
    have hcs0 : (if pos < start then u64sub start pos else 0) = start - pos := by
      split
      · exact u64sub_small _ _ (by omega) (by omega)
      · omega
    rw [hcs0, u64sub_small (start + length) pos (by omega) (by omega)]
    have hbc : blobContent ext (c :: rest) = chunkSlice ext c ++ blobContent ext rest := rfl
    have htail : ∀ c2 ∈ rest, chunkValid ext c2 = true :=
      fun c2 h2 => hvalid c2 (by simp [h2])
    have htailsm : ∀ c2 ∈ rest, extentSmall ext c2 = true :=
      fun c2 h2 => hsmall c2 (by simp [h2])
    by_cases hA : start < pos + c.count
    · rw [if_pos ⟨hposlt, hA⟩]
      rcases Nat.le_total c.count (start + length - pos) with hmin | hmin
      · rw [min_eq_left hmin]
        rw [u64sub_small (c.count) (start - pos) (by omega) (by omega)]
        rw [extentReadRange_ok ext c (start - pos) (c.count - (start - pos)) hc
          (by omega) hcsm]
        simp only []
        rw [u64add_small read (c.count - (start - pos)) (by omega)]
        by_cases hstop : read + (c.count - (start - pos)) ≥ length
        · rw [if_pos hstop]
          rw [hbc, List.drop_append_eq_append_drop, List.take_append_eq_append_take]
          simp only [List.length_drop, hk]
          rw [show start - pos - c.count = 0 from by omega, List.drop_zero]
          rw [show start + length - max start pos - (c.count - (start - pos)) = 0 from by
            omega, List.take_zero, List.append_nil]
          rw [show c.count - (start - pos) = start + length - max start pos from by omega]
        · rw [if_neg hstop]
          rw [ih (pos + c.count) (read + (c.count - (start - pos)))
            htail htailsm (by omega) (by omega) (by omega)]
          rw [hbc, List.drop_append_eq_append_drop, List.take_append_eq_append_take]
          simp only [List.length_drop, hk]
          rw [show start - pos - c.count = 0 from by omega, List.drop_zero]
          have ht1 : List.take (c.count - (start - pos))
              (List.drop (start - pos) (chunkSlice ext c)) =
              List.drop (start - pos) (chunkSlice ext c) :=
            List.take_of_length_le (by simp only [List.length_drop, hk]; omega)
          have ht2 : List.take (start + length - max start pos)
              (List.drop (start - pos) (chunkSlice ext c)) =
              List.drop (start - pos) (chunkSlice ext c) :=
            List.take_of_length_le (by simp only [List.length_drop, hk]; omega)
          rw [ht1, ht2]
          rw [show start - (pos + c.count) = 0 from by omega, List.drop_zero]
          rw [show max start (pos + c.count) = pos + c.count from by omega]
          rw [show start + length - max start pos - (c.count - (start - pos)) =
            start + length - (pos + c.count) from by omega]
      · rw [min_eq_right hmin]
        rw [u64sub_small (start + length - pos) (start - pos) (by omega) (by omega)]
        rw [extentReadRange_ok ext c (start - pos)
          (start + length - pos - (start - pos)) hc (by omega) hcsm]
        simp only []
        rw [u64add_small read (start + length - pos - (start - pos)) (by omega)]
        rw [if_pos (show read + (start + length - pos - (start - pos)) ≥ length from by
          omega)]
        rw [hbc, List.drop_append_eq_append_drop, List.take_append_eq_append_take]
        simp only [List.length_drop, hk]
        rw [show start - pos - c.count = 0 from by omega, List.drop_zero]
        rw [show start + length - max start pos - (c.count - (start - pos)) = 0 from by
          omega, List.take_zero, List.append_nil]
        rw [show start + length - pos - (start - pos) =
          start + length - max start pos from by omega]
    · rw [if_neg (fun h => hA h.2)]
      show (if read ≥ length then some (Except.ok ([] : List Nat))
          else match readRangeLoop ext start length rest (pos + c.count) read with
            | none => none
            | some (Except.error e) => some (Except.error e)
            | some (Except.ok restData) => some (Except.ok (([] : List Nat) ++ restData))) =
        some (Except.ok (List.take (start + length - max start pos)
          (List.drop (start - pos) (blobContent ext (c :: rest)))))
      rw [if_neg (by omega)]
      rw [ih (pos + c.count) read htail htailsm (by omega) hpos (by omega)]
      rw [hbc, List.drop_append_eq_append_drop, List.take_append_eq_append_take]
      simp only [List.length_drop, hk]
      have hd1 : List.drop (start - pos) (chunkSlice ext c) = [] :=
        List.drop_eq_nil_of_le (by simp only [hk]; omega)
      rw [hd1, List.take_nil, List.nil_append, List.nil_append]
      rw [show start - pos - c.count = start - (pos + c.count) from by omega]
      rw [show max start (pos + c.count) = start from by omega]
      rw [show max start pos = start from by omega]
      rw [show start + length - start - (c.count - (start - pos)) =
        start + length - start from by omega]

/-- A zero-length range read over a nonempty chunk list returns no bytes. -/
theorem readRangeLoop_zero (ext : ExtentState) (start : Nat) (c : ExtentChunk)
    (rest : List ExtentChunk) (pos : Nat) (hc : chunkValid ext c = true)
    (hcsm : extentSmall ext c = true)
    (hs : start < U64MOD) (hp : pos + c.count < U64MOD) :
    readRangeLoop ext start 0 (c :: rest) pos 0 = some (.ok []) := by
  have hsl : u64add start 0 = start := by
    unfold u64add
    simp [Nat.mod_eq_of_lt hs]
  have hce : u64add pos c.count = pos + c.count := u64add_small _ _ hp
  unfold readRangeLoop
  rw [hce, hsl]
  simp only []
  by_cases hcnd : pos < start ∧ start < pos + c.count
  · rw [if_pos hcnd]
    have hps : pos < start := hcnd.1
    rw [if_pos hps]
    have hss : u64sub start pos = start - pos := u64sub_small _ _ (by omega) (by omega)
    rw [hss]
    rw [min_eq_right (by omega)]
    rw [show u64sub (start - pos) (start - pos) = 0 from
      by rw [u64sub_small _ _ (by omega) (by omega)]; omega]
    rw [extentReadRange_ok ext c (start - pos) 0 hc (by omega) hcsm]
    simp only []
    rw [show u64add 0 0 = 0 from by unfold u64add; simp [U64MOD]]
    rw [if_pos (by omega), List.take_zero]
  · rw [if_neg (fun h => hcnd ⟨by omega, h.2⟩)]
    simp only []
    rw [if_pos (by omega)]

/-- The observable shape of download_blob on a request carrying an explicit
bytes range: an InvalidRange error past the end, otherwise the range-read
loop drives the 206 response. -/
theorem downloadBlob_range (ctx : Ctx) (st : St) (container blobName : String)
    (blob : BlobModel) (start endv : Nat)
    (hcont : ctx.container = some container) (hblob2 : ctx.blob = some blobName)
    (hsnap : ctx.snapshotParam = none)
    (hget : metaGetBlob st.meta ctx.account container blobName "" = .ok blob)
    (hcond : checkConditionalHeaders ctx blob = .ok ())
    (hrange : ctx.range = some (start, some endv)) :
    downloadBlob ctx st =
      (if start ≥ blob.properties.content_length then
        (some (.error (StorageError.new .InvalidRange)), st)
      else
        match readRangeLoop st.ext start
            (u64add (u64sub (min endv (blob.properties.content_length - 1)) start) 1)
            blob.extent_chunks 0 0 with
        | none => (none, st)
        | some (.error e) => (some (.error e), st)
        | some (.ok result) =>
          (some (.ok ⟨206, result,
            some ("bytes " ++ toString start ++ "-" ++
              toString (min endv (blob.properties.content_length - 1)) ++ "/" ++
              toString blob.properties.content_length)⟩), st)) := by
  unfold downloadBlob
  rw [hcont, hblob2, hsnap]
  simp only [Option.getD]
  rw [hget]
  simp only [hcond, hrange]

/-! ## Claim C5 (fresh ETag on every mutation). -/

/-- Concrete container for the ETag scenarios. -/
def c5Container : ContainerModel where
  account := "a1"
  name := "c1"
  properties := ContainerProperties.mkDefault (genEtag 98) 0
  metadata := []
  signed_identifiers := []
  deleted := false
  deleted_version := none
  deleted_time := none
  remaining_retention_days := none

/-- Concrete blob whose etag was generated at counter value 99. -/
def c5Blob : BlobModel := BlobModel.mkNew "a1" "c1" "b1" .BlockBlob 0 (genEtag 99) 5

/-- Concrete server state holding c5Blob, with generator counter 0. -/
def c5St : St where
  meta := { containers := [(("a1", "c1"), c5Container)],
            blobs := [(("a1", "c1", "b1", ""), c5Blob)],
            blobIndex := [(("a1", "c1"), ["b1"])],
            blocks := [], blockIndex := [] }
  ext := { extents := [], currentSize := 0, sizeLimit := 0, nextId := 0 }
  fresh := 0
  now := 10

/-- A plain set-blob-tags request (no lease, no conditionals, empty body). -/
def c5Ctx : Ctx where
  account := "a1"
  container := some "c1"
  blob := some "b1"
  queryParams := []
  headers := []
  ifModifiedSinceTime := none
  ifUnmodifiedSinceTime := none
  method := "PUT"
  uriPath := "/a1/c1/b1"

/-- Claim C5 is false as stated: set_blob_tags succeeds (204) but stores the
blob with its old ETag unchanged — the source never calls update_etag in
this handler. -/
theorem c5_counterexample :
    (setBlobTags c5Ctx [] c5St).1 = .ok 204 ∧
    ((metaGetBlob (setBlobTags c5Ctx [] c5St).2.meta "a1" "c1" "b1" "").map
      (fun b => b.properties.etag)) = .ok c5Blob.properties.etag := by
  decide

/-- Claim C5 (amended): the mutating blob and container operations assign a
fresh ETag — shown here for set-blob-properties, set-blob-metadata,
set-blob-tier and set-container-metadata — with the exception of
set-blob-tags, which stores the blob with its ETag unchanged. -/
theorem c5_amended (ctx : Ctx) (st : St) (container blobName : String)
    (blob : BlobModel)
    (hcont : ctx.container = some container)
    (hblob : ctx.blob = some blobName)
    (hwf : metaKeysConsistent st.meta)
    (hget : metaGetBlob st.meta ctx.account container blobName "" = .ok blob)
    (hlease : checkBlobLease blob ctx.leaseId = .ok ())
    (hcond : checkConditionalHeaders ctx blob = .ok ())
    (hfresh : ¬ genEtag st.fresh = blob.properties.etag) :
    (∃ st', setBlobProperties ctx st = (.ok 200, st') ∧
      ∃ b', metaGetBlob st'.meta ctx.account container blobName "" = .ok b' ∧
        b'.properties.etag = genEtag st.fresh ∧
        ¬ b'.properties.etag = blob.properties.etag) ∧
    (∃ st', setBlobMetadata ctx st = (.ok 200, st') ∧
      ∃ b', metaGetBlob st'.meta ctx.account container blobName "" = .ok b' ∧
        b'.properties.etag = genEtag st.fresh ∧
        ¬ b'.properties.etag = blob.properties.etag) ∧
    (∀ tier t, ctx.header "x-ms-access-tier" = some tier →
      AccessTier.fromStr tier = some t →
      ∃ st', setBlobTier ctx st = (.ok 200, st') ∧
        ∃ b', metaGetBlob st'.meta ctx.account container blobName "" = .ok b' ∧
          b'.properties.etag = genEtag st.fresh ∧
          ¬ b'.properties.etag = blob.properties.etag) ∧
    (∀ cont, containerKeysConsistent st.meta →
      metaGetContainer st.meta ctx.account container = .ok cont →
      checkContainerLease cont ctx.leaseId = .ok () →
      ∃ st', setContainerMetadata ctx st = (.ok 200, st') ∧
        ∃ c', metaGetContainer st'.meta ctx.account container = .ok c' ∧
          c'.properties.etag = genEtag st.fresh) ∧
    (∀ body tags, parseTags body = .ok tags →
      ∃ st', setBlobTags ctx body st = (.ok 204, st') ∧
        ∃ b', metaGetBlob st'.meta ctx.account container blobName "" = .ok b' ∧
          b'.properties.etag = blob.properties.etag) := by
  obtain ⟨hce, hsome, hdel⟩ := (metaGetBlob_ok_iff _ _ _ _ _ _).mp hget
  have hkey := blobKey_of_get hwf hsome
  refine ⟨?_, ?_, ?_, ?_, ?_⟩
  · unfold setBlobProperties
    simp only [hcont, hblob, hget, hlease, hcond]
    refine ⟨_, rfl, ?_⟩
    refine ⟨_, metaGetBlob_after_update _ (by simpa using hkey) hce hdel, ?_, ?_⟩
    · rfl
    · simpa [BlobProperties.updateEtag] using hfresh
  · unfold setBlobMetadata
    simp only [hcont, hblob, hget, hlease, hcond]
    refine ⟨_, rfl, ?_⟩
    refine ⟨_, metaGetBlob_after_update _ (by simpa using hkey) hce hdel, ?_, ?_⟩
    · rfl
    · simpa [BlobProperties.updateEtag] using hfresh
  · intro tier t htier hfrom
    unfold setBlobTier
    simp only [hcont, hblob, htier, hfrom, hget]
    refine ⟨_, rfl, ?_⟩
    refine ⟨_, metaGetBlob_after_update _ (by simpa using hkey) hce hdel, ?_, ?_⟩
    · rfl
    · simpa [BlobProperties.updateEtag] using hfresh
  · intro cont hwfc hgetc hleasec
    unfold setContainerMetadata
    simp only [hcont, hgetc, hleasec]
    have hsomec : alistGet st.meta.containers (ctx.account, container) = some cont := by
      unfold metaGetContainer at hgetc
      cases hc : alistGet st.meta.containers (ctx.account, container) with
      | none => rw [hc] at hgetc; exact absurd hgetc (by simp)
      | some c0 => rw [hc] at hgetc; injection hgetc with hc0; rw [hc0]
    have hkeyc : (ctx.account, container) = (cont.account, cont.name) :=
      hwfc _ (alistGet_mem hsomec)
    have hupd : metaUpdateContainer st.meta { cont with metadata := ctx.metadataOf, properties := cont.properties.updateEtag (genEtag st.fresh) st.now } = .ok { st.meta with containers := alistPut st.meta.containers (cont.account, cont.name) { cont with metadata := ctx.metadataOf, properties := cont.properties.updateEtag (genEtag st.fresh) st.now } } := by
      unfold metaUpdateContainer
      simp only
      rw [← hkeyc, hsomec]
    rw [hupd]
    refine ⟨_, rfl, ?_⟩
    have hg : metaGetContainer { st.meta with containers := alistPut st.meta.containers (cont.account, cont.name) { cont with metadata := ctx.metadataOf, properties := cont.properties.updateEtag (genEtag st.fresh) st.now } } ctx.account container = .ok { cont with metadata := ctx.metadataOf, properties := cont.properties.updateEtag (genEtag st.fresh) st.now } := by
      unfold metaGetContainer
      simp only
      rw [hkeyc, alistGet_put_self]
    exact ⟨_, hg, rfl⟩
  · intro body tags hparse
    unfold setBlobTags
    simp only [hcont, hblob, hget, hlease]
    by_cases hb : body = []
    · subst hb
      rw [if_neg (by simp)]
      refine ⟨_, rfl, ?_⟩
      refine ⟨_, metaGetBlob_after_update _ (by simpa using hkey) hce hdel, rfl⟩
    · simp only [hb, not_false_iff, if_true, hparse]
      refine ⟨_, rfl, ?_⟩
      refine ⟨_, metaGetBlob_after_update _ (by simpa using hkey) hce hdel, rfl⟩

/-- Witness for c5_amended at the concrete state c5St. -/
theorem c5_amended_witness :
    ∃ st', setBlobProperties c5Ctx c5St = (.ok 200, st') ∧
      ∃ b', metaGetBlob st'.meta c5Ctx.account "c1" "b1" "" = .ok b' ∧
        b'.properties.etag = genEtag c5St.fresh ∧
        ¬ b'.properties.etag = c5Blob.properties.etag :=
  (c5_amended c5Ctx c5St "c1" "b1" c5Blob (by decide) (by decide) (by decide)
    (by decide) (by decide) (by decide) (by decide)).1

/-! ## Claim C6 (lease enforcement on writes and deletes). -/

/-- Claim C6 (amended): for a blob whose lease state is Leased and which
holds a lease id, every operation that runs check_blob_lease — delete_blob
and the handlers sharing that check — fails with LeaseIdMissing (412) when
no x-ms-lease-id is supplied, with LeaseIdMismatchWithBlobOperation (409) on
a non-matching id, and passes on the matching id; delete_blob returns these
errors with the state unchanged (the handler mutates nothing before the
lease check).  The amendment narrows the claim from every write or delete to
the operations that perform the check: set_blob_tier and copy_blob never
call it and mutate the leased blob (see the counterexample). -/
theorem c6_lease_enforcement (blob : BlobModel) (eid : String)
    (hleased : blob.properties.lease_state = .Leased)
    (hid : blob.properties.lease_id = some eid) :
    (checkBlobLease blob none = .error (StorageError.new .LeaseIdMissing) ∧
      ErrorCode.LeaseIdMissing.statusCode = 412) ∧
    (∀ pid, ¬ pid = eid →
      checkBlobLease blob (some pid) =
        .error (StorageError.new .LeaseIdMismatchWithBlobOperation)) ∧
    ErrorCode.LeaseIdMismatchWithBlobOperation.statusCode = 409 ∧
    checkBlobLease blob (some eid) = .ok () ∧
    (∀ ctx st container blobName,
      ctx.container = some container → ctx.blob = some blobName →
      ctx.snapshotParam = none →
      metaGetBlob st.meta ctx.account container blobName "" = .ok blob →
      ((ctx.leaseId = none →
         deleteBlob ctx st = (.error (StorageError.new .LeaseIdMissing), st)) ∧
       (∀ pid, ctx.leaseId = some pid → ¬ pid = eid →
         deleteBlob ctx st =
           (.error (StorageError.new .LeaseIdMismatchWithBlobOperation), st)))) := by
  refine ⟨⟨?_, rfl⟩, ?_, rfl, ?_, ?_⟩
  · simp [checkBlobLease, hleased, hid]
  · intro pid hpid
    simp [checkBlobLease, hleased, hid, hpid]
    intro h
    exact absurd h.symm hpid
  · simp [checkBlobLease, hleased, hid]
  · intro ctx st container blobName hcont hblob hsnap hget
    constructor
    · intro hlid
      unfold deleteBlob
      simp only [hcont, hblob, hsnap, Option.getD_none, hget]
      have hcheck : checkBlobLease blob ctx.leaseId =
          .error (StorageError.new .LeaseIdMissing) := by
        rw [hlid]; simp [checkBlobLease, hleased, hid]
      rw [hcheck]
    · intro pid hlid hpid
      unfold deleteBlob
      simp only [hcont, hblob, hsnap, Option.getD_none, hget]
      have hcheck : checkBlobLease blob ctx.leaseId =
          .error (StorageError.new .LeaseIdMismatchWithBlobOperation) := by
        rw [hlid]
        simp [checkBlobLease, hleased, hid]
        intro h
        exact absurd h.symm hpid
      rw [hcheck]

/-- Concrete leased blob (lease id "lease-1"). -/
def c6Blob : BlobModel :=
  let b := BlobModel.mkNew "a1" "c1" "b1" .BlockBlob 0 (genEtag 99) 5
  { b with properties := { b.properties with lease_state := .Leased, lease_status := .Locked, lease_id := some "lease-1" } }

/-- Concrete server state holding the leased blob c6Blob. -/
def c6St : St where
  meta := { containers := [(("a1", "c1"), c5Container)],
            blobs := [(("a1", "c1", "b1", ""), c6Blob)],
            blobIndex := [(("a1", "c1"), ["b1"])],
            blocks := [], blockIndex := [] }
  ext := { extents := [], currentSize := 0, sizeLimit := 0, nextId := 0 }
  fresh := 0
  now := 10

/-- A DELETE request carrying no x-ms-lease-id. -/
def c6Ctx : Ctx where
  account := "a1"
  container := some "c1"
  blob := some "b1"
  queryParams := []
  headers := []
  ifModifiedSinceTime := none
  ifUnmodifiedSinceTime := none
  method := "DELETE"
  uriPath := "/a1/c1/b1"

/-- Witness for c6_lease_enforcement: deleting the leased blob without a
lease id fails with LeaseIdMissing and leaves the state untouched. -/
theorem c6_lease_enforcement_witness :
    deleteBlob c6Ctx c6St = (.error (StorageError.new .LeaseIdMissing), c6St) :=
  (((c6_lease_enforcement c6Blob "lease-1" (by decide) (by decide)).2.2.2.2
    c6Ctx c6St "c1" "b1" (by decide) (by decide) (by decide) (by decide)).1 (by decide))

/-- A set-tier request (PUT comp=tier) carrying no x-ms-lease-id. -/
def c6TierCtx : Ctx where
  account := "a1"
  container := some "c1"
  blob := some "b1"
  queryParams := [("comp", "tier")]
  headers := [("x-ms-access-tier", "Archive")]
  ifModifiedSinceTime := none
  ifUnmodifiedSinceTime := none
  method := "PUT"
  uriPath := "/a1/c1/b1"

/-- A copy request overwriting b1, carrying no x-ms-lease-id. -/
def c6CopyCtx : Ctx where
  account := "a1"
  container := some "c1"
  blob := some "b1"
  queryParams := []
  headers := [("x-ms-copy-source", "http://127.0.0.1:10000/a1/c1/b1")]
  ifModifiedSinceTime := none
  ifUnmodifiedSinceTime := none
  method := "PUT"
  uriPath := "/a1/c1/b1"

/-- Claim C6 counterexample: the claim quantifies over any write or delete,
but set_blob_tier performs no lease check: with no x-ms-lease-id it returns
200 and mutates the leased blob (new tier, new ETag) instead of failing with
LeaseIdMissing.  Likewise copy_blob overwrites the leased destination blob
with no lease check, returning 202 and even clearing the lease. -/
theorem c6_counterexample :
    c6Blob.properties.lease_state = .Leased ∧
    c6TierCtx.leaseId = none ∧
    (setBlobTier c6TierCtx c6St).1 = .ok 200 ∧
    (metaGetBlob (setBlobTier c6TierCtx c6St).2.meta "a1" "c1" "b1" "").map
      (fun b => (b.properties.access_tier, b.properties.etag)) =
      .ok (AccessTier.Archive, genEtag 0) ∧
    ¬ genEtag 0 = c6Blob.properties.etag ∧
    c6CopyCtx.leaseId = none ∧
    (copyBlob c6CopyCtx c6St).1 = .ok 202 ∧
    (metaGetBlob (copyBlob c6CopyCtx c6St).2.meta "a1" "c1" "b1" "").map
      (fun b => b.properties.lease_state) = .ok LeaseState.Available := by
  decide

/-! ## Claim C7 (SharedKey signature verification). -/

/-- The canonicalized x-ms headers as worded by claim C7: lowercased names,
whitespace-collapsed values, sorted ascending, each line newline
terminated. -/
def specCanonicalizedHeaders (ctx : Ctx) : String :=
  String.join
    (((ctx.headers.filter (fun p => "x-ms-".toList.isPrefixOf p.1.toList)).insertionSort
        (fun a b => a.1 ≤ b.1)).map
      (fun p => asciiToLower p.1 ++ ":" ++ collapseWhitespace p.2 ++ "\n"))

/-- The canonicalized resource as worded by claim C7: slash, account, uri
path, then for each query parameter in key-sorted order a newline, the
lowercased key, a colon and the percent-decoded value. -/
def specCanonicalizedResource (ctx : Ctx) : String :=
  "/" ++ ctx.account ++ ctx.uriPath ++
    String.join ((ctx.queryParams.insertionSort (fun a b => asciiToLower a.1 ≤ asciiToLower b.1)).map
      (fun p => "\n" ++ asciiToLower p.1 ++ ":" ++ percentDecode p.2))

/-- The SharedKey string-to-sign as worded by claim C7: the newline-joined
twelve fields followed by the canonicalized headers and the canonicalized
resource with no extra newline in between. -/
def specStringToSign (ctx : Ctx) : String :=
  String.intercalate "\n"
    [asciiToUpper ctx.method,
     (ctx.header "content-encoding").getD "",
     (ctx.header "content-language").getD "",
     (match ctx.contentLength with
      | some n => if n = 0 then "" else toString n
      | none => ""),
     (ctx.header "content-md5").getD "",
     (ctx.header "content-type").getD "",
     (if (ctx.header "x-ms-date").isSome then "" else (ctx.header "date").getD ""),
     (ctx.header "if-modified-since").getD "",
     (ctx.header "if-match").getD "",
     (ctx.header "if-none-match").getD "",
     (ctx.header "if-unmodified-since").getD "",
     (ctx.header "range").getD ""] ++ "\n" ++
    specCanonicalizedHeaders ctx ++ specCanonicalizedResource ctx

/-- The source header canonicalization agrees with the claim wording. -/
theorem buildCanonicalizedHeaders_eq_spec (ctx : Ctx) :
    buildCanonicalizedHeaders ctx = specCanonicalizedHeaders ctx := by
  unfold buildCanonicalizedHeaders specCanonicalizedHeaders Ctx.msHeaders
  by_cases h : (ctx.headers.filter (fun p => "x-ms-".toList.isPrefixOf p.1.toList)).insertionSort (fun a b => a.1 ≤ b.1) = []
  · rw [h]
    simp only [List.isEmpty_nil, if_true, List.map_nil]
    rfl
  · rw [if_neg (by simpa [List.isEmpty_iff] using h)]

/-- The source resource canonicalization agrees with the claim wording. -/
theorem buildCanonicalizedResource_eq_spec (ctx : Ctx) :
    buildCanonicalizedResource ctx = specCanonicalizedResource ctx := by
  unfold buildCanonicalizedResource specCanonicalizedResource
  by_cases h : ctx.queryParams.isEmpty
  · rw [if_pos h]
    rw [List.isEmpty_iff] at h
    rw [h]
    show _ = _ ++ String.join _
    simp only [List.insertionSort, List.map_nil]
    rw [show String.join [] = "" from rfl, String.append_empty]
  · rw [if_neg h]

/-- The source string-to-sign agrees with the claim wording. -/
theorem buildStringToSign_eq_spec (ctx : Ctx) :
    buildStringToSign ctx = specStringToSign ctx := by
  cases hcl : ctx.contentLength with
  | none =>
    simp only [buildStringToSign, specStringToSign, List.map, hcl, String.reduceEq,
      reduceIte]
    rw [buildCanonicalizedHeaders_eq_spec, buildCanonicalizedResource_eq_spec]
    simp only [List.cons_append, List.nil_append]
  | some n =>
    cases n with
    | zero =>
      simp only [buildStringToSign, specStringToSign, List.map, hcl, String.reduceEq,
        reduceIte]
      rw [buildCanonicalizedHeaders_eq_spec, buildCanonicalizedResource_eq_spec]
      simp only [List.cons_append, List.nil_append]
    | succ m =>
      simp only [buildStringToSign, specStringToSign, List.map, hcl, String.reduceEq,
        reduceIte, Nat.succ_ne_zero]
      rw [buildCanonicalizedHeaders_eq_spec, buildCanonicalizedResource_eq_spec]
      simp only [List.cons_append, List.nil_append]

/-- Claim C7: for a request authenticated with the SharedKey scheme whose
account matches the URL account and is configured with a key, the verifier
accepts exactly when the supplied signature equals the HMAC-SHA256 signature
recomputed over the string-to-sign, failing with AuthenticationFailed
otherwise; and the string-to-sign is formed exactly as the claim words it
(second conjunct).  The HMAC primitive itself lives in the external hmac and
sha2 crates and is universally quantified. -/
theorem c7_shared_key (hmacB64 : String → String → String) (ctx : Ctx)
    (config : List (String × String)) (auth_header creds acct sig key : String)
    (hauth : ctx.header "authorization" = some auth_header)
    (hsplit1 : splitOnce auth_header ' ' = some ("SharedKey", creds))
    (hsplit2 : splitOnce creds ':' = some (acct, sig))
    (hacct : acct = ctx.account)
    (hkey : alistGet config acct = some key) :
    validateSharedKey hmacB64 ctx config =
      (if sig = hmacB64 key (buildStringToSign ctx) then .ok ()
       else .error (StorageError.new .AuthenticationFailed)) ∧
    buildStringToSign ctx = specStringToSign ctx := by
  refine ⟨?_, buildStringToSign_eq_spec ctx⟩
  unfold validateSharedKey
  simp only [hauth, hsplit1, hsplit2, hkey]
  rw [if_neg (by simp)]
  rw [if_neg (by simp [hacct])]
  rw [if_pos trivial]
  unfold computeSignature
  by_cases hs : sig = hmacB64 key (buildStringToSign ctx)
  · rw [if_neg (by simp [hs]), if_pos hs]
  · rw [if_pos (by simp [hs]), if_neg hs]

/-- Concrete SharedKey-authenticated request. -/
def c7Ctx : Ctx where
  account := "a1"
  container := some "c1"
  blob := none
  queryParams := [("comp", "list")]
  headers := [("authorization", "SharedKey a1:S"),
    ("x-ms-date", "Mon, 01 Jan 2024 00:00:00 GMT"), ("x-ms-version", "2021-10-04")]
  ifModifiedSinceTime := none
  ifUnmodifiedSinceTime := none
  method := "GET"
  uriPath := "/a1/c1"

/-- Witness for c7_shared_key at the concrete request c7Ctx. -/
theorem c7_shared_key_witness :
    validateSharedKey (fun _ _ => "S") c7Ctx [("a1", "KEY")] =
      (if "S" = (fun (_ _ : String) => "S") "KEY" (buildStringToSign c7Ctx) then Except.ok ()
       else Except.error (StorageError.new .AuthenticationFailed)) ∧
    buildStringToSign c7Ctx = specStringToSign c7Ctx :=
  c7_shared_key (fun _ _ => "S") c7Ctx [("a1", "KEY")] "SharedKey a1:S" "a1:S" "a1" "S"
    "KEY" (by decide) (by decide) (by decide) (by decide) (by decide)

/-! ## Claim C2 (effective block list resolution). -/

/-- Modelled from the spec: the prior committed block list of a blob, i.e.
the effective id list of its last successful commit-block-list.  The
implementation does not track committed block ids (commit_block_list keeps
its committed_chunks vector empty and unread), so this notion exists only on
the specification side. -/
def specPriorCommittedIds (lastCommit : BlockListRequest) : List String :=
  lastCommit.latest ++ lastCommit.uncommitted ++ lastCommit.committed

/-- Claim C2 (amended): the effective block list of commit_block_list is, in
request-XML order, the Latest, Uncommitted and Committed entries, and each
id is resolved against the blob's staged blocks ONLY — there is no prior
committed list to consult, because commit_block_list never reads or stores
one.  When every id has a staged block the commit succeeds with 201, the
blob's chunks are the resolved chunks in order and content_length is the
size sum; when some id has no staged block the commit fails with
InvalidBlockList and the state is unchanged. -/
theorem c2_amended (ctx : Ctx) (body : List XmlEvent) (st : St)
    (container blobName : String) (req : BlockListRequest)
    (hcont : ctx.container = some container)
    (hblob : ctx.blob = some blobName)
    (hwf : metaKeysConsistent st.meta)
    (hex : containerExists st.meta ctx.account container = true)
    (hlease : ∀ b, (metaGetBlob st.meta ctx.account container blobName "").toOption = some b →
      checkBlobLease b ctx.leaseId = .ok ())
    (hparse : BlockListRequest.parse body = .ok req) :
    ((∀ id ∈ req.latest ++ req.uncommitted ++ req.committed,
        ∃ b ∈ metaGetStagedBlocks st.meta ctx.account container blobName, b.block_id = id) →
      ∃ st' bs,
        commitBlockList ctx body st = (.ok 201, st') ∧
        resolveList (metaGetStagedBlocks st.meta ctx.account container blobName)
          (req.latest ++ req.uncommitted ++ req.committed) = some bs ∧
        ∃ blob', metaGetBlob st'.meta ctx.account container blobName "" = .ok blob' ∧
          blob'.extent_chunks = bs.map (fun b => b.extent_chunk) ∧
          blob'.properties.content_length = (bs.map (fun b => b.size)).sum) ∧
    ((∃ id ∈ req.latest ++ req.uncommitted ++ req.committed,
        ∀ b ∈ metaGetStagedBlocks st.meta ctx.account container blobName, ¬ b.block_id = id) →
      ∃ e, commitBlockList ctx body st = (.error e, st) ∧ e.code = .InvalidBlockList) := by
  constructor
  · intro hall
    obtain ⟨bs, hres, hblk⟩ := resolveBlocks_ok _ _ hall
    simp only [commitBlockList, hcont, hblob]
    rw [if_neg (by simp [hex])]
    cases hE : (metaGetBlob st.meta ctx.account container blobName "").toOption with
    | none =>
      simp only [hparse, hblk]
      refine ⟨_, bs, rfl, hres, ?_⟩
      rw [metaGetBlob_after_deleteStaged]
      refine ⟨_, metaGetBlob_after_create _ rfl hex rfl, rfl, ?_⟩
      cases ht : ctx.header "x-ms-access-tier" with
      | none =>
        simp only [applyContentHeaders_content_length]
        rfl
      | some tier =>
        cases hf : AccessTier.fromStr tier <;>
          simp only [hf, applyContentHeaders_content_length] <;> rfl
    | some b0 =>
      simp only [hlease b0 hE]
      simp only [hparse, hblk]
      have hb0 : metaGetBlob st.meta ctx.account container blobName "" = .ok b0 := by
        cases hg : metaGetBlob st.meta ctx.account container blobName "" with
        | ok bb => rw [hg] at hE; simp [Except.toOption] at hE; rw [hE]
        | error e => rw [hg] at hE; simp [Except.toOption] at hE
      obtain ⟨hce0, hsome0, hdel0⟩ := (metaGetBlob_ok_iff _ _ _ _ _ _).mp hb0
      have hkey0 := blobKey_of_get hwf hsome0
      refine ⟨_, bs, rfl, hres, ?_⟩
      rw [metaGetBlob_after_deleteStaged]
      refine ⟨_, metaGetBlob_after_create _ (by simpa using hkey0) hex hdel0, rfl, ?_⟩
      cases ht : ctx.header "x-ms-access-tier" with
      | none =>
        simp only [applyContentHeaders_content_length]
        rfl
      | some tier =>
        cases hf : AccessTier.fromStr tier <;>
          simp only [hf, applyContentHeaders_content_length] <;> rfl
  · intro hmiss
    obtain ⟨e, he, hcode⟩ := resolveBlocks_missing _ _ hmiss
    simp only [commitBlockList, hcont, hblob]
    rw [if_neg (by simp [hex])]
    cases hE : (metaGetBlob st.meta ctx.account container blobName "").toOption with
    | none =>
      simp only [hparse, he]
      exact ⟨e, rfl, hcode⟩
    | some b0 =>
      simp only [hlease b0 hE]
      simp only [hparse, he]
      exact ⟨e, rfl, hcode⟩

/-- Concrete staged block for the C2 scenario. -/
def c2Block : BlockModel :=
  BlockModel.mkNew "a1" "c1" "b1" "b1x" 3 (ExtentChunk.new "eA" 0 3) 0

/-- Concrete container for the C2 scenario. -/
def c2Container : ContainerModel where
  account := "a1"
  name := "c1"
  properties := ContainerProperties.mkDefault (genEtag 98) 0
  metadata := []
  signed_identifiers := []
  deleted := false
  deleted_version := none
  deleted_time := none
  remaining_retention_days := none

/-- Concrete server state with one staged block b1x backed by extent eA. -/
def c2St0 : St where
  meta := { containers := [(("a1", "c1"), c2Container)],
            blobs := [], blobIndex := [],
            blocks := [(("a1", "c1", "b1", "b1x"), c2Block)],
            blockIndex := [(("a1", "c1", "b1"), ["b1x"])] }
  ext := { extents := [("eA", [65, 65, 65])], currentSize := 3, sizeLimit := 0,
           nextId := 0 }
  fresh := 0
  now := 10

/-- Concrete commit-block-list request context for the C2 scenario. -/
def c2Ctx : Ctx where
  account := "a1"
  container := some "c1"
  blob := some "b1"
  queryParams := []
  headers := []
  ifModifiedSinceTime := none
  ifUnmodifiedSinceTime := none
  method := "PUT"
  uriPath := "/a1/c1/b1"

/-- Commit body listing b1x under Latest. -/
def c2BodyLatest : List XmlEvent :=
  [.start "BlockList", .start "Latest", .text "b1x", .close "Latest",
   .close "BlockList"]

/-- Commit body listing b1x under Committed. -/
def c2BodyCommitted : List XmlEvent :=
  [.start "BlockList", .start "Committed", .text "b1x", .close "Committed",
   .close "BlockList"]

/-- The parsed form of both C2 commit bodies effective-list-wise: b1x only. -/
def c2Req1 : BlockListRequest := ⟨[], [], ["b1x"]⟩

/-- Claim C2 counterexample: after a successful commit of b1x (so b1x is in
the blob's prior committed block list) the staged blocks are discarded, and
a second commit naming b1x under Committed fails with InvalidBlockList with
the state unchanged — the resolver never consults the prior committed list,
contradicting the claimed staged-then-committed resolution order. -/
theorem c2_counterexample :
    BlockListRequest.parse c2BodyLatest = .ok c2Req1 ∧
    (commitBlockList c2Ctx c2BodyLatest c2St0).1 = .ok 201 ∧
    "b1x" ∈ specPriorCommittedIds c2Req1 ∧
    metaGetStagedBlocks (commitBlockList c2Ctx c2BodyLatest c2St0).2.meta
      "a1" "c1" "b1" = [] ∧
    resultErrorCode
      (commitBlockList c2Ctx c2BodyCommitted
        (commitBlockList c2Ctx c2BodyLatest c2St0).2).1 =
      some ErrorCode.InvalidBlockList ∧
    (commitBlockList c2Ctx c2BodyCommitted
      (commitBlockList c2Ctx c2BodyLatest c2St0).2).2 =
      (commitBlockList c2Ctx c2BodyLatest c2St0).2 := by
  decide

/-- Witness for c2_amended at the concrete C2 scenario. -/
theorem c2_amended_witness :
    ∃ st' bs, commitBlockList c2Ctx c2BodyLatest c2St0 = (.ok 201, st') ∧
      resolveList (metaGetStagedBlocks c2St0.meta c2Ctx.account "c1" "b1")
        (c2Req1.latest ++ c2Req1.uncommitted ++ c2Req1.committed) = some bs ∧
      ∃ blob', metaGetBlob st'.meta c2Ctx.account "c1" "b1" "" = .ok blob' ∧
        blob'.extent_chunks = bs.map (fun b => b.extent_chunk) ∧
        blob'.properties.content_length = (bs.map (fun b => b.size)).sum :=
  ((c2_amended c2Ctx c2BodyLatest c2St0 "c1" "b1" c2Req1 (by decide) (by decide)
    (by decide) (by decide)
    (by
      intro b hb
      rw [show (metaGetBlob c2St0.meta c2Ctx.account "c1" "b1" "").toOption = none
        from by decide] at hb
      exact Option.noConfusion hb)
    (by decide)).1 (by decide))

/-! ## Claim C10 (delete_blob destroys extents shared with a copy). -/

/-- Concrete source blob whose content lives in extent eA. -/
def c10Src : BlobModel :=
  { BlobModel.mkNew "a1" "c1" "src" .BlockBlob 3 (genEtag 99) 5 with
    extent_chunks := [ExtentChunk.new "eA" 0 3] }

/-- Concrete container for the C10 scenario. -/
def c10Container : ContainerModel where
  account := "a1"
  name := "c1"
  properties := ContainerProperties.mkDefault (genEtag 98) 0
  metadata := []
  signed_identifiers := []
  deleted := false
  deleted_version := none
  deleted_time := none
  remaining_retention_days := none

/-- Concrete server state holding the source blob and its extent. -/
def c10St0 : St where
  meta := { containers := [(("a1", "c1"), c10Container)],
            blobs := [(("a1", "c1", "src", ""), c10Src)],
            blobIndex := [(("a1", "c1"), ["src"])],
            blocks := [], blockIndex := [] }
  ext := { extents := [("eA", [65, 66, 67])], currentSize := 3, sizeLimit := 0,
           nextId := 1 }
  fresh := 0
  now := 10

/-- Copy request: PUT dst with x-ms-copy-source naming src. -/
def c10CtxCopy : Ctx where
  account := "a1"
  container := some "c1"
  blob := some "dst"
  queryParams := []
  headers := [("x-ms-copy-source", "http://127.0.0.1:10000/a1/c1/src")]
  ifModifiedSinceTime := none
  ifUnmodifiedSinceTime := none
  method := "PUT"
  uriPath := "/a1/c1/dst"

/-- Delete request for the source blob. -/
def c10CtxDel : Ctx where
  account := "a1"
  container := some "c1"
  blob := some "src"
  queryParams := []
  headers := []
  ifModifiedSinceTime := none
  ifUnmodifiedSinceTime := none
  method := "DELETE"
  uriPath := "/a1/c1/src"

/-- Download request for the copied blob. -/
def c10CtxGet : Ctx where
  account := "a1"
  container := some "c1"
  blob := some "dst"
  queryParams := []
  headers := []
  ifModifiedSinceTime := none
  ifUnmodifiedSinceTime := none
  method := "GET"
  uriPath := "/a1/c1/dst"

/-- Claim C10: copy_blob duplicates the source's extent-chunk references
(the copy's chunk list equals the source's), delete_blob on the source then
removes extent eA even though the copy still references it, and the
subsequent download of the copy fails with InternalError (HTTP 500) instead
of returning its content. -/
theorem c10_shared_extent_delete :
    (copyBlob c10CtxCopy c10St0).1 = .ok 202 ∧
    (metaGetBlob (copyBlob c10CtxCopy c10St0).2.meta "a1" "c1" "dst" "").map
      (fun b => b.extent_chunks) = .ok c10Src.extent_chunks ∧
    (deleteBlob c10CtxDel (copyBlob c10CtxCopy c10St0).2).1 = .ok 202 ∧
    extentLookup (deleteBlob c10CtxDel (copyBlob c10CtxCopy c10St0).2).2.ext "eA" =
      none ∧
    (downloadBlob c10CtxGet (deleteBlob c10CtxDel (copyBlob c10CtxCopy c10St0).2).2).1 =
      some (.error (StorageError.new .InternalError)) ∧
    ErrorCode.InternalError.statusCode = 500 := by
  decide

/-! ## Claim C1 (commit-block-list result and subsequent download). -/

/-- Claim C1: a successful commit whose effective block list resolves to
staged blocks bs sets the base blob's content_length to the sum of their
sizes, discards all staged blocks of the blob, and a subsequent plain
download of the blob returns 200 with the concatenation of the staged block
bodies in effective-list order. -/
theorem c1_commit_then_download (ctx ctx2 : Ctx) (body : List XmlEvent) (st : St)
    (container blobName : String) (req : BlockListRequest)
    (hcont : ctx.container = some container)
    (hblob : ctx.blob = some blobName)
    (hwf : metaKeysConsistent st.meta)
    (hex : containerExists st.meta ctx.account container = true)
    (hlease : ∀ b, (metaGetBlob st.meta ctx.account container blobName "").toOption = some b →
      checkBlobLease b ctx.leaseId = .ok ())
    (hparse : BlockListRequest.parse body = .ok req)
    (hall : ∀ id ∈ req.latest ++ req.uncommitted ++ req.committed,
      ∃ b ∈ metaGetStagedBlocks st.meta ctx.account container blobName, b.block_id = id)
    (hvalid : ∀ b ∈ metaGetStagedBlocks st.meta ctx.account container blobName,
      chunkValid st.ext b.extent_chunk = true)
    (h2acct : ctx2.account = ctx.account)
    (h2cont : ctx2.container = some container)
    (h2blob : ctx2.blob = some blobName)
    (h2snap : ctx2.snapshotParam = none)
    (h2range : ctx2.range = none)
    (h2im : ctx2.ifMatch = none) (h2inm : ctx2.ifNoneMatch = none)
    (h2ims : ctx2.ifModifiedSinceTime = none)
    (h2ius : ctx2.ifUnmodifiedSinceTime = none) :
    ∃ st' bs,
      commitBlockList ctx body st = (.ok 201, st') ∧
      resolveList (metaGetStagedBlocks st.meta ctx.account container blobName)
        (req.latest ++ req.uncommitted ++ req.committed) = some bs ∧
      (∃ blob', metaGetBlob st'.meta ctx.account container blobName "" = .ok blob' ∧
        blob'.properties.content_length = (bs.map (fun b => b.size)).sum) ∧
      metaGetStagedBlocks st'.meta ctx.account container blobName = [] ∧
      downloadBlob ctx2 st' =
        (some (.ok ⟨200, blobContent st.ext (bs.map (fun b => b.extent_chunk)), none⟩),
          st') := by
  obtain ⟨bs, hres, hblk⟩ := resolveBlocks_ok _ _ hall
  have hv : ∀ c ∈ bs.map (fun b => b.extent_chunk), chunkValid st.ext c = true := by
    intro c hc
    obtain ⟨b, hb, hbc⟩ := List.mem_map.mp hc
    exact hbc ▸ hvalid b (resolveList_subset _ _ _ hres b hb)
  have hloop := readFullLoop_ok st.ext (bs.map (fun b => b.extent_chunk)) hv
  simp only [commitBlockList, hcont, hblob]
  rw [if_neg (by simp [hex])]
  cases hE : (metaGetBlob st.meta ctx.account container blobName "").toOption with
  | none =>
    simp only [hparse, hblk]
    refine ⟨_, bs, rfl, hres, ?_, ?_, ?_⟩
    · rw [metaGetBlob_after_deleteStaged]
      refine ⟨_, metaGetBlob_after_create _ rfl hex rfl, ?_⟩
      cases ht : ctx.header "x-ms-access-tier" with
      | none =>
        simp only [applyContentHeaders_content_length]
        rfl
      | some tier =>
        cases hf : AccessTier.fromStr tier <;>
          simp only [hf, applyContentHeaders_content_length] <;> rfl
    · exact metaGetStagedBlocks_after_delete _ _ _ _
    · apply downloadBlob_full ctx2 _ container blobName _ _ h2cont h2blob h2snap
        ?hgetA ?hcondA h2range ?hreadA
      case hgetA =>
        rw [h2acct, metaGetBlob_after_deleteStaged]
        exact metaGetBlob_after_create _ rfl hex rfl
      case hcondA =>
        exact checkConditionalHeaders_none ctx2 _ h2im h2inm h2ims h2ius
      case hreadA => exact hloop
  | some b0 =>
    simp only [hlease b0 hE]
    simp only [hparse, hblk]
    have hb0 : metaGetBlob st.meta ctx.account container blobName "" = .ok b0 := by
      cases hg : metaGetBlob st.meta ctx.account container blobName "" with
      | ok bb => rw [hg] at hE; simp [Except.toOption] at hE; rw [hE]
      | error e => rw [hg] at hE; simp [Except.toOption] at hE
    obtain ⟨hce0, hsome0, hdel0⟩ := (metaGetBlob_ok_iff _ _ _ _ _ _).mp hb0
    have hkey0 := blobKey_of_get hwf hsome0
    refine ⟨_, bs, rfl, hres, ?_, ?_, ?_⟩
    · rw [metaGetBlob_after_deleteStaged]
      refine ⟨_, metaGetBlob_after_create _ (by simpa using hkey0) hex hdel0, ?_⟩
      cases ht : ctx.header "x-ms-access-tier" with
      | none =>
        simp only [applyContentHeaders_content_length]
        rfl
      | some tier =>
        cases hf : AccessTier.fromStr tier <;>
          simp only [hf, applyContentHeaders_content_length] <;> rfl
    · exact metaGetStagedBlocks_after_delete _ _ _ _
    · apply downloadBlob_full ctx2 _ container blobName _ _ h2cont h2blob h2snap
        ?hgetB ?hcondB h2range ?hreadB
      case hgetB =>
        rw [h2acct, metaGetBlob_after_deleteStaged]
        exact metaGetBlob_after_create _ (by simpa using hkey0) hex hdel0
      case hcondB =>
        exact checkConditionalHeaders_none ctx2 _ h2im h2inm h2ims h2ius
      case hreadB => exact hloop

/-- Concrete staged block for the C1 scenario: three bytes in extent eA. -/
def c1Block : BlockModel :=
  BlockModel.mkNew "a1" "c1" "b1" "b1x" 3 (ExtentChunk.new "eA" 0 3) 0

/-- Concrete container for the C1 scenario. -/
def c1Container : ContainerModel where
  account := "a1"
  name := "c1"
  properties := ContainerProperties.mkDefault (genEtag 98) 0
  metadata := []
  signed_identifiers := []
  deleted := false
  deleted_version := none
  deleted_time := none
  remaining_retention_days := none

/-- Concrete server state with one staged block backed by extent eA. -/
def c1St0 : St where
  meta := { containers := [(("a1", "c1"), c1Container)],
            blobs := [], blobIndex := [],
            blocks := [(("a1", "c1", "b1", "b1x"), c1Block)],
            blockIndex := [(("a1", "c1", "b1"), ["b1x"])] }
  ext := { extents := [("eA", [65, 66, 67])], currentSize := 3, sizeLimit := 0,
           nextId := 1 }
  fresh := 0
  now := 10

/-- Commit request context for the C1 scenario. -/
def c1Ctx : Ctx where
  account := "a1"
  container := some "c1"
  blob := some "b1"
  queryParams := []
  headers := []
  ifModifiedSinceTime := none
  ifUnmodifiedSinceTime := none
  method := "PUT"
  uriPath := "/a1/c1/b1"

/-- Plain download request context for the C1 scenario. -/
def c1CtxGet : Ctx where
  account := "a1"
  container := some "c1"
  blob := some "b1"
  queryParams := []
  headers := []
  ifModifiedSinceTime := none
  ifUnmodifiedSinceTime := none
  method := "GET"
  uriPath := "/a1/c1/b1"

/-- Commit body listing b1x under Latest. -/
def c1Body : List XmlEvent :=
  [.start "BlockList", .start "Latest", .text "b1x", .close "Latest",
   .close "BlockList"]

/-- The parsed form of c1Body. -/
def c1Req : BlockListRequest := ⟨[], [], ["b1x"]⟩

/-- Witness for c1_commit_then_download at the concrete C1 scenario. -/
theorem c1_commit_then_download_witness :
    ∃ st' bs,
      commitBlockList c1Ctx c1Body c1St0 = (.ok 201, st') ∧
      resolveList (metaGetStagedBlocks c1St0.meta c1Ctx.account "c1" "b1")
        (c1Req.latest ++ c1Req.uncommitted ++ c1Req.committed) = some bs ∧
      (∃ blob', metaGetBlob st'.meta c1Ctx.account "c1" "b1" "" = .ok blob' ∧
        blob'.properties.content_length = (bs.map (fun b => b.size)).sum) ∧
      metaGetStagedBlocks st'.meta c1Ctx.account "c1" "b1" = [] ∧
      downloadBlob c1CtxGet st' =
        (some (.ok ⟨200, blobContent c1St0.ext (bs.map (fun b => b.extent_chunk)), none⟩),
          st') :=
  c1_commit_then_download c1Ctx c1CtxGet c1Body c1St0 "c1" "b1" c1Req
    (by decide) (by decide) (by decide) (by decide)
    (by
      intro b hb
      rw [show (metaGetBlob c1St0.meta c1Ctx.account "c1" "b1" "").toOption = none
        from by decide] at hb
      exact Option.noConfusion hb)
    (by decide) (by decide) (by decide)
    (by decide) (by decide) (by decide) (by decide) (by decide) (by decide)
    (by decide) (by decide) (by decide)

/-! ## Claim C3 (range download). -/

/-- Claim C3 (amended): on a blob of content length L backed by in-bounds
chunks summing to L bytes, a download with Range bytes=start-end where
start < L, end < L AND start ≤ end + 1 returns 206, the body is exactly
bytes start..=end of the content assembled across chunk boundaries, and
Content-Range is bytes start-end/L; a Range whose start is at or past L
fails with InvalidRange, which carries HTTP status 400 (the status_code
mapping lists InvalidRange in its 400 Bad Request group; the dedicated 416
arm further down is unreachable).  The amendment adds start ≤ end + 1: when
start exceeds end by two or more the wrapped u64 length makes the range-read
loop panic in the extent store's slice, so the handler produces no response
at all (see the counterexample). -/
theorem c3_amended (ctx : Ctx) (st : St) (container blobName : String)
    (blob : BlobModel) (start endv L : Nat)
    (hcont : ctx.container = some container) (hblob2 : ctx.blob = some blobName)
    (hsnap : ctx.snapshotParam = none)
    (hget : metaGetBlob st.meta ctx.account container blobName "" = .ok blob)
    (hcond : checkConditionalHeaders ctx blob = .ok ())
    (hrange : ctx.range = some (start, some endv))
    (hL : blob.properties.content_length = L)
    (hsum : sumCounts blob.extent_chunks = L)
    (hvalid : ∀ c ∈ blob.extent_chunks, chunkValid st.ext c = true)
    (hsmall : ∀ c ∈ blob.extent_chunks, extentSmall st.ext c = true)
    (hbig : 2 * L < U64MOD) :
    (start < L → endv < L → start ≤ endv + 1 →
      downloadBlob ctx st =
        (some (.ok ⟨206,
          ((blobContent st.ext blob.extent_chunks).drop start).take (endv + 1 - start),
          some ("bytes " ++ toString start ++ "-" ++ toString endv ++ "/" ++
            toString L)⟩), st)) ∧
    (L ≤ start →
      downloadBlob ctx st = (some (.error (StorageError.new .InvalidRange)), st) ∧
      (StorageError.new .InvalidRange).code.statusCode = 400) := by
  have hdr := downloadBlob_range ctx st container blobName blob start endv
    hcont hblob2 hsnap hget hcond hrange
  rw [hL] at hdr
  constructor
  · intro hsL heL hse
    rw [if_neg (by omega)] at hdr
    have hmin : min endv (L - 1) = endv := min_eq_left (by omega)
    rw [hmin] at hdr
    rcases Nat.lt_or_ge endv start with hlt | hge
    · have hstart : start = endv + 1 := by omega
      have hlen : u64add (u64sub endv start) 1 = 0 := by
        subst hstart
        unfold u64sub u64add
        rw [Nat.mod_eq_of_lt (show endv < U64MOD from by omega),
          Nat.mod_eq_of_lt (show endv + 1 < U64MOD from by omega)]
        rw [show endv + (U64MOD - (endv + 1)) = U64MOD - 1 from by omega]
        rw [Nat.mod_eq_of_lt (show U64MOD - 1 < U64MOD from by omega)]
        rw [show U64MOD - 1 + 1 = U64MOD from by omega]
        exact Nat.mod_self U64MOD
      rw [hlen] at hdr
      cases hch : blob.extent_chunks with
      | nil =>
        rw [hch] at hsum
        simp [sumCounts] at hsum
        omega
      | cons c rest =>
        have hc0 := hvalid c (by rw [hch]; simp)
        have hsm0 := hsmall c (by rw [hch]; simp)
        have hcount : c.count ≤ L := by
          rw [hch] at hsum
          simp [sumCounts] at hsum
          omega
        rw [hch] at hdr
        rw [readRangeLoop_zero st.ext start c rest 0 hc0 hsm0 (by omega) (by omega)]
          at hdr
        rw [hdr]
        rw [show endv + 1 - start = 0 from by omega, List.take_zero]
    · have hlen : u64add (u64sub endv start) 1 = endv + 1 - start := by
        rw [u64sub_small endv start (by omega) (by omega)]
        rw [u64add_small _ _ (by omega)]
        omega
      rw [hlen] at hdr
      rw [readRangeLoop_ok st.ext start (endv + 1 - start) blob.extent_chunks 0 0
        hvalid hsmall (by omega) (by omega) (by omega)] at hdr
      rw [hdr]
      rw [show start - 0 = start from by omega]
      rw [show max start 0 = start from by omega]
      rw [show start + (endv + 1 - start) - start = endv + 1 - start from by omega]
  · intro hge
    rw [if_pos (by omega)] at hdr
    exact ⟨hdr, rfl⟩

/-- Concrete three-byte blob for the C3 scenarios. -/
def c3Blob : BlobModel :=
  { BlobModel.mkNew "a1" "c1" "b1" .BlockBlob 3 (genEtag 99) 5 with
    extent_chunks := [ExtentChunk.new "eA" 0 3] }

/-- Concrete container for the C3 scenarios. -/
def c3Container : ContainerModel where
  account := "a1"
  name := "c1"
  properties := ContainerProperties.mkDefault (genEtag 98) 0
  metadata := []
  signed_identifiers := []
  deleted := false
  deleted_version := none
  deleted_time := none
  remaining_retention_days := none

/-- Concrete server state holding the three-byte blob. -/
def c3St : St where
  meta := { containers := [(("a1", "c1"), c3Container)],
            blobs := [(("a1", "c1", "b1", ""), c3Blob)],
            blobIndex := [(("a1", "c1"), ["b1"])],
            blocks := [], blockIndex := [] }
  ext := { extents := [("eA", [65, 66, 67])], currentSize := 3, sizeLimit := 0,
           nextId := 1 }
  fresh := 0
  now := 10

/-- Download request with the inverted range bytes=2-0. -/
def c3Ctx : Ctx where
  account := "a1"
  container := some "c1"
  blob := some "b1"
  queryParams := []
  headers := [("range", "bytes=2-0")]
  ifModifiedSinceTime := none
  ifUnmodifiedSinceTime := none
  method := "GET"
  uriPath := "/a1/c1/b1"

/-- Download request with the ordinary range bytes=1-2. -/
def c3WCtx : Ctx where
  account := "a1"
  container := some "c1"
  blob := some "b1"
  queryParams := []
  headers := [("range", "bytes=1-2")]
  ifModifiedSinceTime := none
  ifUnmodifiedSinceTime := none
  method := "GET"
  uriPath := "/a1/c1/b1"

/-- Claim C3 counterexample: on the three-byte blob, Range bytes=2-0 has
start = 2 < 3 and end = 0 < 3, yet the download neither returns 206 with the
empty byte range nor any error response: the wrapped u64 length drives a
wrapped read_range slice whose start exceeds its end, so the handler panics
(the none outcome).  In addition, InvalidRange itself maps to HTTP 400, not
the 416 the claim asserts. -/
theorem c3_counterexample :
    c3Ctx.range = some (2, some 0) ∧
    (metaGetBlob c3St.meta "a1" "c1" "b1" "").map
      (fun b => b.properties.content_length) = .ok 3 ∧
    2 < 3 ∧ (0 : Nat) < 3 ∧
    (downloadBlob c3Ctx c3St).1 = none ∧
    ErrorCode.InvalidRange.statusCode = 400 ∧
    ¬ ErrorCode.InvalidRange.statusCode = 416 := by
  decide

/-- Witness for c3_amended at the three-byte blob with Range bytes=1-2. -/
theorem c3_amended_witness :
    (1 < 3 → 2 < 3 → 1 ≤ 2 + 1 →
      downloadBlob c3WCtx c3St =
        (some (.ok ⟨206,
          ((blobContent c3St.ext c3Blob.extent_chunks).drop 1).take (2 + 1 - 1),
          some ("bytes " ++ toString 1 ++ "-" ++ toString 2 ++ "/" ++
            toString 3)⟩), c3St)) ∧
    (3 ≤ 1 →
      downloadBlob c3WCtx c3St = (some (.error (StorageError.new .InvalidRange)), c3St) ∧
      (StorageError.new .InvalidRange).code.statusCode = 400) :=
  c3_amended c3WCtx c3St "c1" "b1" c3Blob 1 2 3 (by decide) (by decide) (by decide)
    (by decide) (by decide) (by decide) (by decide) (by decide) (by decide) (by decide)
    (by decide)

/-! ## Claim C9 (list blobs: delimiter, marker, maxresults, NextMarker). -/

/-- The delimiter pass keeps exactly the blobs with no delimiter occurrence
after the prefix. -/
theorem delimRetain_fst (p d : String) (l : List BlobModel) (seen : List String) :
    (delimRetain p d l seen).1 = l.filter
      (fun b => (findSub d.toList (b.name.toList.drop p.toList.length)).isNone) := by
  induction l generalizing seen with
  | nil => rfl
  | cons b rest ih =>
    unfold delimRetain
    cases hf : findSub d.toList (b.name.toList.drop p.toList.length) with
    | some idx =>
      rw [List.filter_cons_of_neg (by rw [hf]; simp)]
      simp only [hf]
      split
      · exact ih _
      · exact ih _
    | none =>
      rw [List.filter_cons_of_pos (by rw [hf]; rfl)]
      simp only [hf]
      rw [ih]

/-- The virtual prefixes collected by the delimiter pass contain no
duplicates and avoid the already-seen set. -/
theorem delimRetain_snd_nodup (p d : String) (l : List BlobModel) :
    ∀ seen : List String, (delimRetain p d l seen).2.Nodup ∧
      ∀ vp ∈ (delimRetain p d l seen).2, vp ∉ seen := by
  induction l with
  | nil => intro seen; exact ⟨List.nodup_nil, by intro vp hvp; simp [delimRetain] at hvp⟩
  | cons b rest ih =>
    intro seen
    unfold delimRetain
    cases hf : findSub d.toList (b.name.toList.drop p.toList.length) with
    | some idx =>
      simp only [hf]
      split
      · exact ih seen
      · rename_i hnot
        obtain ⟨hnd, hdisj⟩ := ih
          ((p ++ String.mk ((b.name.toList.drop p.toList.length).take idx) ++ d) :: seen)
        constructor
        · refine List.Nodup.cons ?_ hnd
          intro hmem
          exact (hdisj _ hmem) (by simp)
        · intro vp hvp
          rcases List.mem_cons.mp hvp with heq | hm
          · exact heq ▸ hnot
          · intro hseen
            exact (hdisj vp hm) (by simp [hseen])
    | none =>
      simp only [hf]
      exact ih seen

/-- A virtual prefix generated by some blob of the list and not yet seen is
collected by the delimiter pass. -/
theorem delimRetain_snd_mem (p d : String) (l : List BlobModel) :
    ∀ seen : List String, ∀ vp : String,
      (∃ b ∈ l, ∃ idx, findSub d.toList (b.name.toList.drop p.toList.length) = some idx ∧
        vp = p ++ String.mk ((b.name.toList.drop p.toList.length).take idx) ++ d) →
      vp ∉ seen → vp ∈ (delimRetain p d l seen).2 := by
  induction l with
  | nil => intro seen vp hgen _; simp at hgen
  | cons b rest ih =>
    intro seen vp hgen hseen
    unfold delimRetain
    obtain ⟨b0, hb0, idx0, hidx0, hvp0⟩ := hgen
    cases hf : findSub d.toList (b.name.toList.drop p.toList.length) with
    | some idx =>
      simp only [hf]
      split
      · rename_i hin
        rcases List.mem_cons.mp hb0 with heq | hm
        · subst heq
          rw [hidx0] at hf
          injection hf with hf
          subst hf
          exact absurd (hvp0 ▸ hin) hseen
        · exact ih seen vp ⟨b0, hm, idx0, hidx0, hvp0⟩ hseen
      · rename_i hnotin
        by_cases hvpx : vp = p ++ String.mk ((b.name.toList.drop p.toList.length).take idx) ++ d
        · exact hvpx ▸ List.mem_cons_self _ _
        · refine List.mem_cons_of_mem _ ?_
          rcases List.mem_cons.mp hb0 with heq | hm
          · subst heq
            rw [hidx0] at hf
            injection hf with hf
            exact absurd (hf ▸ hvp0) hvpx
          · refine ih _ vp ⟨b0, hm, idx0, hidx0, hvp0⟩ ?_
            intro hx
            rcases List.mem_cons.mp hx with h1 | h2
            · exact hvpx h1
            · exact hseen h2
    | none =>
      simp only [hf]
      rcases List.mem_cons.mp hb0 with heq | hm
      · subst heq
        rw [hidx0] at hf
        cases hf
      · exact ih seen vp ⟨b0, hm, idx0, hidx0, hvp0⟩ hseen

/-- Membership in the base-blob fetch without include-deleted: exactly the
stored, non-deleted base blob of the name. -/
theorem mem_fetchBaseBlob (m : MetaState) (a c name : String) (b : BlobModel) :
    b ∈ fetchBaseBlob m a c name false ↔
      (alistGet m.blobs (a, c, name, "") = some b ∧ b.deleted = false) := by
  unfold fetchBaseBlob
  cases h : alistGet m.blobs (a, c, name, "") with
  | none => simp
  | some b2 =>
    cases hd : b2.deleted with
    | true =>
      simp only [hd, Bool.not_true, Bool.false_or, Bool.false_eq_true, if_false]
      simp only [List.not_mem_nil, false_iff, not_and]
      intro heq
      injection heq with heq
      rw [← heq, hd]
      simp
    | false =>
      simp only [hd, Bool.not_false, Bool.false_or, if_true]
      simp only [List.mem_singleton, Option.some.injEq]
      constructor
      · intro heq
        subst heq
        exact ⟨rfl, hd⟩
      · rintro ⟨heq, h2⟩
        exact heq.symm

/-- Claim C9: for a list-blobs request with prefix P, delimiter D and marker
mk over the non-deleted base blobs, every returned blob name has prefix P,
is past the marker and holds no delimiter after the prefix; every candidate
blob whose stripped name contains D contributes its virtual prefix to the
BlobPrefix results and (being filtered) is not itself listed; the prefix
list has no duplicates, the blob list is truncated to maxresults (default
5000), and NextMarker is the name of the last returned blob exactly when
truncation occurred and absent otherwise. -/
theorem c9_list_blobs (m : MetaState) (account container P D mk : String)
    (maxres : Option Nat)
    (hwf : metaKeysConsistent m)
    (hex : containerExists m account container = true) :
    ∃ blobs prefixes next,
      metaListBlobs m account container (some P) (some D) (some mk) maxres
        false false = .ok (blobs, prefixes, next) ∧
      prefixes.Nodup ∧
      (∀ b ∈ blobs, findSub D.toList (b.name.toList.drop P.toList.length) = none) ∧
      (∀ b ∈ blobs, P.toList.isPrefixOf b.name.toList ∧ ¬ b.name ≤ mk ∧
        b.deleted = false) ∧
      (∀ name ∈ (alistGet m.blobIndex (account, container)).getD [], ∀ b,
        alistGet m.blobs (account, container, name, "") = some b →
        b.deleted = false →
        P.toList.isPrefixOf name.toList → ¬ name ≤ mk →
        ∀ idx, findSub D.toList (name.toList.drop P.toList.length) = some idx →
          (P ++ String.mk ((name.toList.drop P.toList.length).take idx) ++ D) ∈
            prefixes) ∧
      blobs.length ≤ maxres.getD 5000 ∧
      (∃ full, blobs = full.take (maxres.getD 5000) ∧
        (full.length > maxres.getD 5000 →
          next = blobs.getLast?.map (fun b => b.name)) ∧
        (full.length ≤ maxres.getD 5000 → blobs = full ∧ next = none)) := by
  unfold metaListBlobs
  rw [if_neg (by simp [hex])]
  simp only [Bool.false_eq_true, if_false, List.append_nil, Option.getD_some]
  set names : List String :=
    List.filter (fun name => P.toList.isPrefixOf name.toList && !decide (name ≤ mk))
      ((alistGet m.blobIndex (account, container)).getD []) with hnamesdef
  set sortedNames : List String := List.insertionSort (fun a b => a ≤ b) names
    with hsortedNamesdef
  set fetched : List BlobModel :=
    sortedNames.flatMap (fun name => fetchBaseBlob m account container name false)
    with hfetcheddef
  set sortedBlobs : List BlobModel := List.insertionSort blobPairLe fetched
    with hsortedBlobsdef
  set spl : List BlobModel × List String := delimRetain P D sortedBlobs []
    with hspldef
  set prefixesSorted : List String := List.insertionSort (fun a b => a ≤ b) spl.2
    with hprefixesdef
  have hpermN : List.Perm sortedNames names := List.perm_insertionSort _ _
  have hpermB : List.Perm sortedBlobs fetched := List.perm_insertionSort _ _
  have hpermP : List.Perm prefixesSorted spl.2 := List.perm_insertionSort _ _
  have hnd : prefixesSorted.Nodup :=
    hpermP.nodup_iff.mpr ((delimRetain_snd_nodup P D sortedBlobs) []).1
  have hfst := delimRetain_fst P D sortedBlobs []
  rw [← hspldef] at hfst
  have hsrc : ∀ b ∈ spl.1,
      findSub D.toList (b.name.toList.drop P.toList.length) = none ∧
      ∃ name ∈ names, alistGet m.blobs (account, container, name, "") = some b ∧
        b.deleted = false := by
    intro b hb
    rw [hfst] at hb
    have hfind : (findSub D.toList (b.name.toList.drop P.toList.length)).isNone = true :=
      (List.mem_filter.mp hb).2
    have hbs : b ∈ sortedBlobs := List.mem_of_mem_filter hb
    have hbf : b ∈ fetched := hpermB.mem_iff.mp hbs
    obtain ⟨name, hnm, hmemf⟩ := List.mem_flatMap.mp hbf
    obtain ⟨halist, hdel⟩ := (mem_fetchBaseBlob m account container name b).mp hmemf
    exact ⟨by simpa [Option.isNone_iff_eq_none] using hfind, name,
      hpermN.mem_iff.mp hnm, halist, hdel⟩
  have hnames_prop : ∀ name ∈ names,
      P.toList.isPrefixOf name.toList = true ∧ ¬ name ≤ mk := by
    intro name hn
    rw [hnamesdef] at hn
    have := (List.mem_filter.mp hn).2
    simp only [Bool.and_eq_true, Bool.not_eq_true', decide_eq_false_iff_not] at this
    exact this
  have hkeyname : ∀ (name : String) (b : BlobModel),
      alistGet m.blobs (account, container, name, "") = some b → b.name = name := by
    intro name b halist
    have := blobKey_of_get hwf halist
    simp only [Prod.mk.injEq] at this
    exact (this.2.2.1).symm
  have hmain : ∀ b ∈ spl.1,
      (findSub D.toList (b.name.toList.drop P.toList.length) = none) ∧
      (P.toList.isPrefixOf b.name.toList ∧ ¬ b.name ≤ mk ∧ b.deleted = false) := by
    intro b hb
    obtain ⟨hfind, name, hnm, halist, hdel⟩ := hsrc b hb
    have hbn := hkeyname name b halist
    obtain ⟨hpf, hmk⟩ := hnames_prop name hnm
    exact ⟨hfind, by rw [hbn]; exact hpf, by rw [hbn]; exact hmk, hdel⟩
  have hvp_mem : ∀ name ∈ (alistGet m.blobIndex (account, container)).getD [], ∀ b,
      alistGet m.blobs (account, container, name, "") = some b →
      b.deleted = false →
      P.toList.isPrefixOf name.toList → ¬ name ≤ mk →
      ∀ idx, findSub D.toList (name.toList.drop P.toList.length) = some idx →
        (P ++ String.mk ((name.toList.drop P.toList.length).take idx) ++ D) ∈
          prefixesSorted := by
    intro name hidx b halist hdel hpf hmk idx hfind
    have hnm : name ∈ names := by
      rw [hnamesdef]
      refine List.mem_filter.mpr ⟨hidx, ?_⟩
      simp only [Bool.and_eq_true, Bool.not_eq_true', decide_eq_false_iff_not]
      exact ⟨hpf, hmk⟩
    have hns : name ∈ sortedNames := hpermN.mem_iff.mpr hnm
    have hbn := hkeyname name b halist
    have hbf : b ∈ fetchBaseBlob m account container name false :=
      (mem_fetchBaseBlob m account container name b).mpr ⟨halist, hdel⟩
    have hbfetched : b ∈ fetched := List.mem_flatMap.mpr ⟨name, hns, hbf⟩
    have hbs : b ∈ sortedBlobs := hpermB.mem_iff.mpr hbfetched
    have hvp := delimRetain_snd_mem P D sortedBlobs [] _
      ⟨b, hbs, idx, by rw [hbn]; exact hfind, by rw [hbn]⟩ (by simp)
    rw [← hspldef] at hvp
    exact hpermP.mem_iff.mpr hvp
  by_cases htr : spl.1.length > maxres.getD 5000
  · rw [if_pos htr]
    refine ⟨_, _, _, rfl, hnd, ?_, ?_, hvp_mem, ?_, spl.1, rfl, fun _ => rfl, ?_⟩
    · intro b hb
      exact (hmain b (List.take_subset _ _ hb)).1
    · intro b hb
      exact (hmain b (List.take_subset _ _ hb)).2
    · exact List.length_take_le _ _
    · intro hle
      omega
  · rw [if_neg htr]
    refine ⟨_, _, _, rfl, hnd, ?_, ?_, hvp_mem, by omega, spl.1,
      (List.take_of_length_le (by omega)).symm, by omega, fun _ => ⟨rfl, rfl⟩⟩
    · intro b hb
      exact (hmain b hb).1
    · intro b hb
      exact (hmain b hb).2

/-- Concrete container for the C9 scenario. -/
def c9Container : ContainerModel where
  account := "a1"
  name := "c1"
  properties := ContainerProperties.mkDefault (genEtag 98) 0
  metadata := []
  signed_identifiers := []
  deleted := false
  deleted_version := none
  deleted_time := none
  remaining_retention_days := none

/-- Concrete zero-length blob of a given name. -/
def c9Blob (name : String) : BlobModel :=
  BlobModel.mkNew "a1" "c1" name .BlockBlob 0 (genEtag 99) 5

/-- Concrete store with five blobs, two behind the virtual directory d/. -/
def c9M : MetaState where
  containers := [(("a1", "c1"), c9Container)]
  blobs := [(("a1", "c1", "a", ""), c9Blob "a"), (("a1", "c1", "b", ""), c9Blob "b"),
            (("a1", "c1", "c", ""), c9Blob "c"),
            (("a1", "c1", "d/x", ""), c9Blob "d/x"),
            (("a1", "c1", "d/y", ""), c9Blob "d/y")]
  blobIndex := [(("a1", "c1"), ["a", "b", "c", "d/x", "d/y"])]
  blocks := []
  blockIndex := []

/-- Witness for c9_list_blobs on the concrete store, with empty prefix,
delimiter slash, marker a and maxresults 1. -/
theorem c9_list_blobs_witness :
    ∃ blobs prefixes next,
      metaListBlobs c9M "a1" "c1" (some "") (some "/") (some "a") (some 1)
        false false = .ok (blobs, prefixes, next) ∧
      prefixes.Nodup ∧
      (∀ b ∈ blobs,
        findSub "/".toList (b.name.toList.drop "".toList.length) = none) ∧
      (∀ b ∈ blobs, "".toList.isPrefixOf b.name.toList ∧ ¬ b.name ≤ "a" ∧
        b.deleted = false) ∧
      (∀ name ∈ (alistGet c9M.blobIndex ("a1", "c1")).getD [], ∀ b,
        alistGet c9M.blobs ("a1", "c1", name, "") = some b →
        b.deleted = false →
        "".toList.isPrefixOf name.toList → ¬ name ≤ "a" →
        ∀ idx, findSub "/".toList (name.toList.drop "".toList.length) = some idx →
          ("" ++ String.mk ((name.toList.drop "".toList.length).take idx) ++ "/") ∈
            prefixes) ∧
      blobs.length ≤ (some 1).getD 5000 ∧
      (∃ full, blobs = full.take ((some 1).getD 5000) ∧
        (full.length > (some 1).getD 5000 →
          next = blobs.getLast?.map (fun b => b.name)) ∧
        (full.length ≤ (some 1).getD 5000 → blobs = full ∧ next = none)) :=
  c9_list_blobs c9M "a1" "c1" "" "/" "a" (some 1) (by decide) (by decide)

end Azurite
